import Mathlib

/-!
# Nova native host (`native-lib.cpp`): a shallow embedding and its verified properties

The C++ translation unit hosts a libretro core on Android.  The embedding below follows
the source function by function:

* machine integers are natural numbers, truncated with `u32` / `u16` wherever the C++
  value is stored into a `uint32_t` / `uint16_t` or computed in `unsigned` arithmetic;
* process-wide globals (`g_isRunning`, `g_emuThread`, `core_run`, ...) are fields of the
  record `Host`, and every FFI entry point is a function on `Host`;
* calls that leave the translation unit (the core's exports, `dlopen`, `dlclose`,
  `std::thread::join`, ...) are recorded, in program order, in the ghost trace `Host.calls`;
* behaviour the C++ standard leaves undefined (a shift by 32 or more, assigning to a
  joinable `std::thread`) is the result `none`.
-/

namespace Nova

/-! ## Machine integers -/

/-- Truncation to `uint32_t` / `unsigned`. -/
def u32 (x : Nat) : Nat := x % 2 ^ 32

/-- Truncation to `uint16_t`. -/
def u16 (x : Nat) : Nat := x % 2 ^ 16

/-- Byte `k` of `x` (byte 0 is the least significant one). -/
def byteOf (k x : Nat) : Nat := (x >>> (8 * k)) &&& 0xFF

/-- The `len`-bit field of `x` whose lowest bit is bit `lo`. -/
def bitField (lo len x : Nat) : Nat := (x >>> lo) &&& (2 ^ len - 1)

/-! ## Pixel formats (`RETRO_PIXEL_FORMAT_*`) -/

def RETRO_PIXEL_FORMAT_0RGB1555 : Int := 0
def RETRO_PIXEL_FORMAT_XRGB8888 : Int := 1
def RETRO_PIXEL_FORMAT_RGB565 : Int := 2

/-! ## Video refresh: the per-pixel conversions and the three blit loops -/

/-- Line 241: `0xFF000000 | ((pixel & 0xFF) << 16) | (pixel & 0xFF00) | ((pixel >> 16) & 0xFF)`,
computed in `uint32_t`. -/
def convertXRGB8888 (pixel : Nat) : Nat :=
  u32 (0xFF000000 ||| u32 ((pixel &&& 0xFF) <<< 16) ||| (pixel &&& 0xFF00)
    ||| ((pixel >>> 16) &&& 0xFF))

/-- Line 250: `(((pixel >> 10) & 0x1F) << 11) | (((pixel >> 5) & 0x1F) << 6) | (pixel & 0x1F)`,
stored into a `uint16_t`. -/
def convert0RGB1555 (pixel : Nat) : Nat :=
  u16 ((((pixel >>> 10) &&& 0x1F) <<< 11) ||| (((pixel >>> 5) &&& 0x1F) <<< 6)
    ||| (pixel &&& 0x1F))

/-- The byte at offset `o` of a memory image. -/
def load8 (mem : Nat → Nat) (o : Nat) : Nat := mem o % 256

/-- Little-endian `uint16_t` load. -/
def load16 (mem : Nat → Nat) (o : Nat) : Nat := load8 mem o + 256 * load8 mem (o + 1)

/-- Little-endian `uint32_t` load. -/
def load32 (mem : Nat → Nat) (o : Nat) : Nat := load16 mem o + 65536 * load16 mem (o + 2)

/-- One store into the locked surface buffer: `size` bytes at byte offset `offset` from
`buffer.bits`. -/
structure Store where
  offset : Nat
  size : Nat
  value : Nat
deriving DecidableEq, Repr

/-- Index of a store counted in units of its own size (the `x` of `dstLine[x]`, from
`buffer.bits`). -/
def Store.index (s : Store) : Nat := s.offset / s.size

/-- Byte offset of destination row `y`: `y * buffer.stride * bpp`, an `unsigned` product. -/
def dstLine (y stride bpp : Nat) : Nat := u32 (u32 (y * stride) * bpp)

/-- Lines 236-243, the XRGB8888 loop.  The source row starts at byte `y * pitch` of `data`
(a `size_t` product, taken without wrap-around). -/
def blitXRGB8888 (data : Nat → Nat) (width height pitch stride : Nat) : List Store :=
  (List.range height).flatMap fun y =>
    (List.range width).map fun x =>
      { offset := dstLine y stride 4 + 4 * x, size := 4,
        value := convertXRGB8888 (load32 data (y * pitch + 4 * x)) }

/-- Lines 245-252, the 0RGB1555 loop. -/
def blit0RGB1555 (data : Nat → Nat) (width height pitch stride : Nat) : List Store :=
  (List.range height).flatMap fun y =>
    (List.range width).map fun x =>
      { offset := dstLine y stride 2 + 2 * x, size := 2,
        value := convert0RGB1555 (load16 data (y * pitch + 2 * x)) }

/-- Lines 254-258, the RGB565 loop: `memcpy(dstLine, srcLine, width * 2)` per row, as byte
stores. -/
def blitRGB565 (data : Nat → Nat) (width height pitch stride : Nat) : List Store :=
  (List.range height).flatMap fun y =>
    (List.range (u32 (width * 2))).map fun i =>
      { offset := dstLine y stride 2 + i, size := 1, value := load8 data (y * pitch + i) }

/-- The function `VideoRefreshCallback`, as the list of stores it makes into the surface
buffer.  `data` is `none` for a null pointer, `window` tells whether `g_nativeWindow` is
set, `lock` is `none` when `ANativeWindow_lock` fails and otherwise the `stride` of the
locked buffer. -/
def VideoRefreshCallback (data : Option (Nat → Nat)) (window : Bool) (format : Int)
    (lock : Option Nat) (width height pitch : Nat) : List Store :=
  match data with
  | none => []
  | some src =>
    if !window then []
    else
      match lock with
      | none => []
      | some stride =>
        if format = RETRO_PIXEL_FORMAT_XRGB8888 then blitXRGB8888 src width height pitch stride
        else if format = RETRO_PIXEL_FORMAT_0RGB1555 then
          blit0RGB1555 src width height pitch stride
        else blitRGB565 src width height pitch stride

/-- The store the video refresh callback makes for the source pixel in column `x` of row
`y`. Both converting loops make their stores row by row, `width` of them per row, so this is
store number `y * width + x` of the callback. -/
def pixelStore (format : Int) (data : Nat → Nat) (width height pitch stride y x : Nat) :
    Option Store :=
  (VideoRefreshCallback (some data) true format (some stride) width height pitch)[y * width + x]?

/-- The memory image whose bytes, from offset 0 on, are the bytes of `P`, lowest first. -/
def pixelBytes (P : Nat) : Nat → Nat := fun o => byteOf o P

/-! ## Input: `sendInput` and the input-state callback -/

def RETRO_DEVICE_JOYPAD : Nat := 1

/-- The C++ expression `1 << n` on `int`, as the 32-bit pattern of its value; `none` when the
shift count is negative or at least the width of `int`, where the behaviour is undefined. -/
def shl1 (n : Int) : Option Nat :=
  if 0 ≤ n ∧ n < 32 then some (1 <<< n.toNat) else none

/-- Lines 494-499, `sendInput`, on the value of `g_joypadBits`: the operand is promoted to
`int`, combined with `1 << buttonId` or with `~(1 << buttonId)`, and stored back into a
`uint16_t`. -/
def sendInput (g_joypadBits : Nat) (buttonId value : Int) : Option Nat :=
  match shl1 buttonId with
  | none => none
  | some m =>
    if value ≠ 0 then some (u16 (g_joypadBits ||| m))
    else some (u16 (g_joypadBits &&& (m ^^^ 0xFFFFFFFF)))

/-- Lines 298-303, `InputStateCallback`, reading the value of `g_joypadBits`. -/
def InputStateCallback (g_joypadBits : Nat) (port device index id : Nat) : Option Int :=
  if port = 0 ∧ device = RETRO_DEVICE_JOYPAD ∧ index = 0 then
    match shl1 id with
    | none => none
    | some m => some (if g_joypadBits &&& m ≠ 0 then 1 else 0)
  else some 0

/-! ## Host state -/

/-- The sixteen function pointers resolved from the core (lines 121-137); `true` stands for
a non-null pointer. -/
structure SymbolTable where
  core_init : Bool
  core_load_game : Bool
  core_run : Bool
  core_deinit : Bool
  core_unload_game : Bool
  core_reset : Bool
  core_get_system_info : Bool
  core_serialize_size : Bool
  core_serialize : Bool
  core_unserialize : Bool
  core_set_environment : Bool
  core_set_video_refresh : Bool
  core_set_audio_sample : Bool
  core_set_audio_sample_batch : Bool
  core_set_input_poll : Bool
  core_set_input_state : Bool
deriving DecidableEq, Repr

/-- The static initialisers: every pointer is `nullptr`. -/
def SymbolTable.null : SymbolTable :=
  { core_init := false, core_load_game := false, core_run := false, core_deinit := false,
    core_unload_game := false, core_reset := false, core_get_system_info := false,
    core_serialize_size := false, core_serialize := false, core_unserialize := false,
    core_set_environment := false, core_set_video_refresh := false,
    core_set_audio_sample := false, core_set_audio_sample_batch := false,
    core_set_input_poll := false, core_set_input_state := false }

/-- A shared object that exports every symbol the host looks up. -/
def SymbolTable.full : SymbolTable :=
  { core_init := true, core_load_game := true, core_run := true, core_deinit := true,
    core_unload_game := true, core_reset := true, core_get_system_info := true,
    core_serialize_size := true, core_serialize := true, core_unserialize := true,
    core_set_environment := true, core_set_video_refresh := true,
    core_set_audio_sample := true, core_set_audio_sample_batch := true,
    core_set_input_poll := true, core_set_input_state := true }

/-- Calls that leave the translation unit, as recorded in the trace of the host. -/
inductive Effect
  | dlopen
  | dlclose
  | join
  | spawn
  | core_init
  | core_load_game
  | core_deinit
  | core_unload_game
  | core_reset
  | core_serialize_size
  | core_serialize
  | core_unserialize
  | core_set_environment
  | core_set_video_refresh
  | core_set_audio_sample
  | core_set_audio_sample_batch
  | core_set_input_poll
  | core_set_input_state
deriving DecidableEq, Repr

/-- The globals of lines 103-143 that the entry points below read or write.
`g_coreHandle` and `g_nativeWindow` hold whether the pointer is non-null, `g_emuThread`
holds `g_emuThread.joinable()`, and `trace` lists the outside calls made so far, oldest
first. -/
structure Host where
  g_coreHandle : Bool
  syms : SymbolTable
  g_nativeWindow : Bool
  g_isRunning : Bool
  g_isPaused : Bool
  g_fastForward : Bool
  g_joypadBits : Nat
  g_pixelFormat : Int
  g_emuThread : Bool
  g_audioBufferPos : Int
  trace : List Effect
deriving DecidableEq, Repr

/-- The state at process start, from the static initialisers. -/
def Host.init : Host :=
  { g_coreHandle := false, syms := SymbolTable.null, g_nativeWindow := false,
    g_isRunning := false, g_isPaused := false, g_fastForward := false, g_joypadBits := 0,
    g_pixelFormat := RETRO_PIXEL_FORMAT_RGB565, g_emuThread := false, g_audioBufferPos := 0,
    trace := [] }

/-- Record one outside call. -/
def Host.emit (h : Host) (e : Effect) : Host := { h with trace := h.trace ++ [e] }

/-- The pattern `if (fn) fn();`. -/
def Host.callIf (h : Host) (fn : Bool) (e : Effect) : Host := if fn then h.emit e else h

/-- Number of emulation threads that have been started and not yet joined.  The only
`std::thread` object of the program is `g_emuThread` and it is never detached, so this is 1
when `g_emuThread` is joinable and 0 otherwise. -/
def Host.liveThreads (h : Host) : Nat := if h.g_emuThread then 1 else 0

/-- The pattern `if (g_emuThread.joinable()) g_emuThread.join();`. -/
def Host.joinEmuThread (h : Host) : Host :=
  if h.g_emuThread then { h.emit Effect.join with g_emuThread := false } else h

/-! ## FFI entry points -/

/-- What `dlopen` and the sixteen `dlsym` lookups return: failure with the `dlerror` text,
or a handle together with the set of symbols the object exports. -/
inductive Dlopen
  | failed (dlerror : String)
  | opened (exports : SymbolTable)
deriving DecidableEq, Repr

/-- Lines 371-421, `loadCore`; the first component is the returned `jstring` (`none` for
`nullptr`). -/
def loadCore (h : Host) (dl : Dlopen) : Option String × Host :=
  let h1 :=
    if h.g_coreHandle then (h.callIf h.syms.core_deinit Effect.core_deinit).emit Effect.dlclose
    else h
  let h2 := h1.emit Effect.dlopen
  match dl with
  | Dlopen.failed dlerror => (some dlerror, { h2 with g_coreHandle := false })
  | Dlopen.opened exports =>
    let h3 := { h2 with g_coreHandle := true, syms := exports }
    if !exports.core_init || !exports.core_load_game || !exports.core_run then
      (some "Core missing required functions",
        { h3.emit Effect.dlclose with g_coreHandle := false })
    else
      let h4 := h3.callIf exports.core_set_environment Effect.core_set_environment
      let h5 := h4.callIf exports.core_set_video_refresh Effect.core_set_video_refresh
      let h6 := h5.callIf exports.core_set_audio_sample Effect.core_set_audio_sample
      let h7 := h6.callIf exports.core_set_audio_sample_batch Effect.core_set_audio_sample_batch
      let h8 := h7.callIf exports.core_set_input_poll Effect.core_set_input_poll
      let h9 := h8.callIf exports.core_set_input_state Effect.core_set_input_state
      (none, h9.emit Effect.core_init)

/-- Lines 423-450, `nativeLoadGame`; `success` is what `core_load_game` returns.  The result
is `none` when `g_emuThread = std::thread(GameLoop)` is reached with `g_emuThread` still
joinable, where the move assignment calls `std::terminate`. -/
def nativeLoadGame (h : Host) (success : Bool) : Option (Bool × Host) :=
  if !h.g_coreHandle || !h.syms.core_load_game then some (false, h)
  else
    let h1 :=
      if h.g_isRunning then
        let a := { h with g_isRunning := false }
        let b := a.joinEmuThread
        b.callIf b.syms.core_unload_game Effect.core_unload_game
      else h
    let h2 := { h1 with g_audioBufferPos := 0 }
    let h3 := h2.emit Effect.core_load_game
    if !success then some (false, h3)
    else
      let h4 := { h3 with g_isRunning := true }
      if h4.g_emuThread then none
      else some (true, { h4.emit Effect.spawn with g_emuThread := true })

/-- Lines 452-455. -/
def nativePauseGame (h : Host) : Host := { h with g_isPaused := true }

/-- Lines 457-460. -/
def nativeResumeGame (h : Host) : Host := { h with g_isPaused := false }

/-- Lines 462-465. -/
def resetGame (h : Host) : Host := h.callIf h.syms.core_reset Effect.core_reset

/-- Lines 467-476, `nativeQuitGame`. -/
def nativeQuitGame (h : Host) : Host :=
  let a := { h with g_isRunning := false }
  let b := a.joinEmuThread
  let c := b.callIf b.syms.core_unload_game Effect.core_unload_game
  { c with g_audioBufferPos := 0 }

/-- Lines 478-491, `setSurface`: `surface` tells whether the argument is non-null and
`fromSurface` whether `ANativeWindow_fromSurface` returns a window. -/
def setSurface (h : Host) (surface fromSurface : Bool) : Host :=
  let a := if h.g_nativeWindow then { h with g_nativeWindow := false } else h
  if surface then { a with g_nativeWindow := fromSurface } else a

/-- Lines 501-504. -/
def setFastForward (h : Host) (enabled : Bool) : Host := { h with g_fastForward := enabled }

/-- Lines 506-550, `saveState`, as far as the host state goes: `size` is what
`core_serialize_size` returns and `malloc` tells whether the allocation succeeds. -/
def saveState (h : Host) (size : Nat) (malloc : Bool) : Host :=
  if !h.syms.core_serialize_size || !h.syms.core_serialize then h
  else
    let a := h.emit Effect.core_serialize_size
    if size = 0 then a
    else if !malloc then a
    else a.emit Effect.core_serialize

/-- Lines 552-596, `loadState`, as far as the host state goes: `fileRead` tells whether the
file was opened, a buffer allocated and the whole file read. -/
def loadState (h : Host) (fileRead : Bool) : Host :=
  if !h.syms.core_unserialize then h
  else if !fileRead then h
  else h.emit Effect.core_unserialize

/-- One call from the managed layer, with the answers of the outside world it depends on. -/
inductive Entry
  | loadCore (dl : Dlopen)
  | nativeLoadGame (success : Bool)
  | nativePauseGame
  | nativeResumeGame
  | resetGame
  | nativeQuitGame
  | setSurface (surface fromSurface : Bool)
  | sendInput (buttonId value : Int)
  | setFastForward (enabled : Bool)
  | saveState (size : Nat) (malloc : Bool)
  | loadState (fileRead : Bool)
  | updateNativeActivity
  | setSystemDirectories
  | setCheat
  | getNativeFps
deriving DecidableEq, Repr

/-- What can happen to the host state: an entry point is called, or the emulation thread,
while it exists, runs callbacks that move the audio cursor (`AudioSampleBatchCallback`,
`GameLoop`) and store a pixel format (`EnvironmentCallback`). -/
inductive Action
  | ffi (e : Entry)
  | emulation (g_audioBufferPos : Int) (g_pixelFormat : Int)
deriving DecidableEq, Repr

/-- Effect of one entry point; `none` where the C++ behaviour is undefined or the process
is terminated. -/
def Host.enter (h : Host) : Entry → Option Host
  | Entry.loadCore dl => some (loadCore h dl).2
  | Entry.nativeLoadGame success => (nativeLoadGame h success).map Prod.snd
  | Entry.nativePauseGame => some (nativePauseGame h)
  | Entry.nativeResumeGame => some (nativeResumeGame h)
  | Entry.resetGame => some (resetGame h)
  | Entry.nativeQuitGame => some (nativeQuitGame h)
  | Entry.setSurface surface fromSurface => some (setSurface h surface fromSurface)
  | Entry.sendInput buttonId value =>
    (sendInput h.g_joypadBits buttonId value).map fun bits => { h with g_joypadBits := bits }
  | Entry.setFastForward enabled => some (setFastForward h enabled)
  | Entry.saveState size malloc => some (saveState h size malloc)
  | Entry.loadState fileRead => some (loadState h fileRead)
  | Entry.updateNativeActivity => some h
  | Entry.setSystemDirectories => some h
  | Entry.setCheat => some h
  | Entry.getNativeFps => some h

/-- Effect of one action. -/
def Host.step (h : Host) : Action → Option Host
  | Action.ffi e => h.enter e
  | Action.emulation pos fmt =>
    if h.g_emuThread then some { h with g_audioBufferPos := pos, g_pixelFormat := fmt }
    else some h

/-- Effect of a sequence of actions, first to last. -/
def Host.run (h : Host) : List Action → Option Host
  | [] => some h
  | a :: rest => (h.step a).bind fun h1 => h1.run rest

/-- The emulation thread exists exactly when the running flag is set. -/
def ThreadMatchesFlag (h : Host) : Prop := h.g_emuThread = h.g_isRunning

/-- A core that exports every symbol has been loaded and a game started: the state after
`loadCore` and a successful `nativeLoadGame` from process start. -/
def Host.playing : Host :=
  { g_coreHandle := true, syms := SymbolTable.full, g_nativeWindow := false,
    g_isRunning := true, g_isPaused := false, g_fastForward := false, g_joypadBits := 0,
    g_pixelFormat := RETRO_PIXEL_FORMAT_RGB565, g_emuThread := true, g_audioBufferPos := 0,
    trace := [Effect.dlopen, Effect.core_set_environment, Effect.core_set_video_refresh,
      Effect.core_set_audio_sample, Effect.core_set_audio_sample_batch,
      Effect.core_set_input_poll, Effect.core_set_input_state, Effect.core_init,
      Effect.core_load_game, Effect.spawn] }

/-! ## The pacer: `GameLoop` -/

/-- The constant `frameTime` of line 311, in microseconds. -/
def frameTime : Int := 16667

/-- The state one emulation thread carries through `GameLoop`: the local `nextFrameTime`
(microseconds on the steady clock), the number of `core_run` calls made so far, the audio
cursor `g_audioBufferPos`, and the sample counts the loop has handed to `SendAudioToJava`. -/
structure Pacer where
  nextFrameTime : Int
  coreRunCalls : Nat
  g_audioBufferPos : Int
  sent : List Int
deriving DecidableEq, Repr

/-- What one pass through the loop body reads from outside: `g_isPaused` at the head of the
pass, `g_fastForward` after the frame, the reading of `steady_clock::now()` taken after the
16 ms sleep of a paused pass, and the value the audio callbacks leave in `g_audioBufferPos`
when `core_run` returns. -/
structure Frame where
  paused : Bool
  fastForward : Bool
  now : Int
  cursorAfterRun : Int
deriving DecidableEq, Repr

/-- Lines 315-339, one pass through the body of the `while` loop. `core_run` tells whether
the pointer is non-null and `env` whether `GetJNIEnv` returned an environment. -/
def GameLoopBody (core_run env : Bool) (f : Frame) (s : Pacer) : Pacer :=
  if f.paused then { s with nextFrameTime := f.now + frameTime }
  else
    let s1 :=
      if core_run then
        { s with coreRunCalls := s.coreRunCalls + 1, g_audioBufferPos := f.cursorAfterRun }
      else s
    let s2 :=
      if 0 < s1.g_audioBufferPos ∧ env = true then
        { s1 with g_audioBufferPos := 0, sent := s1.sent ++ [s1.g_audioBufferPos] }
      else s1
    if !f.fastForward then { s2 with nextFrameTime := s2.nextFrameTime + frameTime } else s2

/-- The passes of the loop from a given state, one for each time `g_isRunning` was read as
true. -/
def GameLoopFrom (core_run env : Bool) (s : Pacer) (frames : List Frame) : Pacer :=
  frames.foldl (fun st f => GameLoopBody core_run env f st) s

/-- Lines 306-343, `GameLoop`: `start` is the reading of the steady clock at line 312 and
`cursor` the audio cursor when the thread starts. -/
def GameLoop (core_run env : Bool) (start cursor : Int) (frames : List Frame) : Pacer :=
  GameLoopFrom core_run env
    { nextFrameTime := start, coreRunCalls := 0, g_audioBufferPos := cursor, sent := [] } frames

/-! ## The audio stage: `AudioSampleBatchCallback` -/

/-- Line 141: `g_audioBuffer` has 8192 elements. -/
def g_audioBufferCapacity : Int := 8192

/-- Line 143: the initial value of `g_audioBufferSize`, which no code path changes. -/
def g_audioBufferSize : Int := 4096

/-- Conversion of an unsigned value to `int`: reduction modulo `2 ^ 32` into the signed
range. -/
def toInt32 (x : Nat) : Int :=
  if x % 2 ^ 32 < 2 ^ 31 then ((x % 2 ^ 32 : Nat) : Int) else ((x % 2 ^ 32 : Nat) : Int) - 2 ^ 32

/-- The audio stage as the batch callback sees it: the write cursor, the stores made into
`g_audioBuffer` (index and sample, oldest first), the values of `samplesToSend` taken at
each flush (line 277), and the sample counts passed to `SendAudioToJava` (line 283). -/
structure AudioStage where
  g_audioBufferPos : Int
  stores : List (Int × Int)
  flushes : List Int
  sent : List Int
deriving DecidableEq, Repr

/-- Lines 272-287, the body of the loop for one sample. `env` tells whether `GetJNIEnv`
returns an environment. A store outside `g_audioBuffer` is undefined behaviour, `none`. -/
def pushSample (bufferSize : Int) (env : Bool) (sample : Int) (a : AudioStage) :
    Option AudioStage :=
  if 0 ≤ a.g_audioBufferPos ∧ a.g_audioBufferPos < g_audioBufferCapacity then
    let a1 : AudioStage :=
      { a with stores := a.stores ++ [(a.g_audioBufferPos, sample)],
               g_audioBufferPos := a.g_audioBufferPos + 1 }
    if Int.tdiv bufferSize 2 ≤ a1.g_audioBufferPos then
      let samplesToSend := a1.g_audioBufferPos
      some { a1 with g_audioBufferPos := 0, flushes := a1.flushes ++ [samplesToSend],
                     sent := if env then a1.sent ++ [samplesToSend] else a1.sent }
    else some a1
  else none

/-- Line 271, `for (int i = 0; i < samples; i++)`, from index `i` with `n` passes left. -/
def batchLoop (bufferSize : Int) (env : Bool) (data : Nat → Int) :
    Nat → Nat → AudioStage → Option AudioStage
  | _, 0, a => some a
  | i, n + 1, a =>
    (pushSample bufferSize env (data i) a).bind (batchLoop bufferSize env data (i + 1) n)

/-- Lines 265-289, `AudioSampleBatchCallback`. `data` is `none` for a null pointer and
`frames` is the `size_t` argument; `samples` is `frames * 2` converted to `int`. -/
def AudioSampleBatchCallback (g_fastForward : Bool) (bufferSize : Int) (env : Bool)
    (data : Option (Nat → Int)) (frames : Nat) (a : AudioStage) : Option AudioStage :=
  match data with
  | none => some a
  | some src =>
    if g_fastForward || frames == 0 then some a
    else batchLoop bufferSize env src 0 (toInt32 (frames * 2)).toNat a

/-- Lines 291-294, `AudioSampleCallback`: a batch of one frame. -/
def AudioSampleCallback (g_fastForward : Bool) (bufferSize : Int) (env : Bool)
    (left right : Int) (a : AudioStage) : Option AudioStage :=
  AudioSampleBatchCallback g_fastForward bufferSize env
    (some fun i => if i = 0 then left else right) 1 a

/-- The cursor is inside the half-open range from 0 to the flush threshold of the default
target, `4096 / 2`. -/
def belowThreshold (pos : Int) : Prop := 0 ≤ pos ∧ pos < 2048

/-! ## Theorems -/

/-! ### Bit-level helpers -/

theorem and_shiftLeft_eq (x m k : Nat) : x &&& (m <<< k) = ((x >>> k) &&& m) <<< k := by
  apply Nat.eq_of_testBit_eq
  intro i
  simp only [Nat.testBit_and, Nat.testBit_shiftLeft, Nat.testBit_shiftRight]
  by_cases h : k ≤ i
  · simp [h]
  · simp [h]

theorem or_eq_add_of_lt (a b i : Nat) (h : b < 2 ^ i) : a * 2 ^ i ||| b = a * 2 ^ i + b := by
  rw [Nat.mul_comm]
  exact (Nat.mul_add_lt_is_or h a).symm

theorem and_0xFF (q : Nat) : q &&& 0xFF = q % 256 := Nat.and_pow_two_sub_one_eq_mod q 8

theorem and_0x1F (q : Nat) : q &&& 0x1F = q % 32 := Nat.and_pow_two_sub_one_eq_mod q 5

theorem byteOf_lt (k x : Nat) : byteOf k x < 256 := by
  unfold byteOf
  rw [and_0xFF]
  omega

/-- The XRGB8888 conversion, byte by byte. -/
theorem convertXRGB8888_bytes (p : Nat) :
    convertXRGB8888 p = 255 * 16777216 + byteOf 0 p * 65536 + byteOf 1 p * 256 + byteOf 2 p := by
  have h0 := byteOf_lt 0 p
  have h1 := byteOf_lt 1 p
  have h2 := byteOf_lt 2 p
  have e : p &&& 0xFF00 = byteOf 1 p <<< 8 := and_shiftLeft_eq p 0xFF 8
  have e0 : p &&& 0xFF = byteOf 0 p := by simp [byteOf]
  have e2 : (p >>> 16) &&& 0xFF = byteOf 2 p := by simp [byteOf]
  unfold convertXRGB8888 u32
  rw [e, e0, e2]
  generalize byteOf 0 p = b0 at *
  generalize byteOf 1 p = b1 at *
  generalize byteOf 2 p = b2 at *
  simp only [Nat.shiftLeft_eq]
  have e1 : (b0 * 2 ^ 16) % 2 ^ 32 = b0 * 2 ^ 16 := by omega
  rw [e1, Nat.or_assoc, Nat.or_assoc]
  rw [or_eq_add_of_lt b1 b2 8 (by omega)]
  rw [or_eq_add_of_lt b0 _ 16 (by omega)]
  have e3 : (4278190080 : Nat) = 255 * 2 ^ 24 := by norm_num
  rw [e3, or_eq_add_of_lt 255 _ 24 (by omega)]
  omega

theorem byteOf_compose (b0 b1 b2 b3 : Nat) (h0 : b0 < 256) (h1 : b1 < 256) (h2 : b2 < 256)
    (h3 : b3 < 256) :
    byteOf 0 (b3 * 16777216 + b2 * 65536 + b1 * 256 + b0) = b0 ∧
    byteOf 1 (b3 * 16777216 + b2 * 65536 + b1 * 256 + b0) = b1 ∧
    byteOf 2 (b3 * 16777216 + b2 * 65536 + b1 * 256 + b0) = b2 ∧
    byteOf 3 (b3 * 16777216 + b2 * 65536 + b1 * 256 + b0) = b3 := by
  simp only [byteOf, and_0xFF, Nat.shiftRight_eq_div_pow, Nat.reduceMul, Nat.reducePow]
  refine ⟨by omega, by omega, by omega, by omega⟩

/-! ### The stores of the converting loops, row by row -/

theorem rows_length {α : Type} (f : Nat → Nat → α) (w h : Nat) :
    ((List.range h).flatMap fun y => (List.range w).map (f y)).length = h * w := by
  induction h with
  | zero => simp
  | succ k ih =>
    rw [List.range_succ, List.flatMap_append, List.length_append, ih]
    simp [Nat.succ_mul]

theorem rows_getElem {α : Type} (f : Nat → Nat → α) (w : Nat) :
    ∀ h y x, y < h → x < w →
      ((List.range h).flatMap fun y => (List.range w).map (f y))[y * w + x]? = some (f y x) := by
  intro h
  induction h with
  | zero => intro y x hy; omega
  | succ h ih =>
    intro y x hy hx
    have hlen := rows_length f w h
    rw [List.range_succ, List.flatMap_append]
    by_cases hlt : y < h
    · have hidx : y * w + x < h * w := by
        have : (y + 1) * w ≤ h * w := Nat.mul_le_mul_right _ hlt
        rw [Nat.succ_mul] at this
        omega
      rw [List.getElem?_append_left (by rw [hlen]; exact hidx)]
      exact ih y x hlt hx
    · have hy2 : y = h := by omega
      subst hy2
      rw [List.getElem?_append_right (by rw [hlen]; omega), hlen]
      simp [hx]

/-- The store of the XRGB8888 loop for the source pixel at row `y`, column `x`. -/
theorem pixelStore_XRGB8888 (data : Nat → Nat) (width height pitch stride y x : Nat)
    (hy : y < height) (hx : x < width) :
    pixelStore RETRO_PIXEL_FORMAT_XRGB8888 data width height pitch stride y x
      = some { offset := dstLine y stride 4 + 4 * x, size := 4,
               value := convertXRGB8888 (load32 data (y * pitch + 4 * x)) } := by
  unfold pixelStore VideoRefreshCallback
  simp only [Bool.not_true, Bool.false_eq_true, if_false, if_true, blitXRGB8888]
  exact rows_getElem _ width height y x hy hx

/-- The store of the 0RGB1555 loop for the source pixel at row `y`, column `x`. -/
theorem pixelStore_0RGB1555 (data : Nat → Nat) (width height pitch stride y x : Nat)
    (hy : y < height) (hx : x < width) :
    pixelStore RETRO_PIXEL_FORMAT_0RGB1555 data width height pitch stride y x
      = some { offset := dstLine y stride 2 + 2 * x, size := 2,
               value := convert0RGB1555 (load16 data (y * pitch + 2 * x)) } := by
  have hne : ¬ RETRO_PIXEL_FORMAT_0RGB1555 = RETRO_PIXEL_FORMAT_XRGB8888 := by decide
  unfold pixelStore VideoRefreshCallback
  simp only [Bool.not_true, Bool.false_eq_true, if_false, if_true, hne, blit0RGB1555]
  exact rows_getElem _ width height y x hy hx

theorem VideoRefreshCallback_XRGB8888_length (data : Nat → Nat)
    (width height pitch stride : Nat) :
    (VideoRefreshCallback (some data) true RETRO_PIXEL_FORMAT_XRGB8888 (some stride) width
      height pitch).length = height * width := by
  unfold VideoRefreshCallback
  simp only [Bool.not_true, Bool.false_eq_true, if_false, if_true, blitXRGB8888]
  exact rows_length _ width height

theorem VideoRefreshCallback_0RGB1555_length (data : Nat → Nat)
    (width height pitch stride : Nat) :
    (VideoRefreshCallback (some data) true RETRO_PIXEL_FORMAT_0RGB1555 (some stride) width
      height pitch).length = height * width := by
  have hne : ¬ RETRO_PIXEL_FORMAT_0RGB1555 = RETRO_PIXEL_FORMAT_XRGB8888 := by decide
  unfold VideoRefreshCallback
  simp only [Bool.not_true, Bool.false_eq_true, if_false, if_true, hne, blit0RGB1555]
  exact rows_length _ width height

theorem byteOf_eq (k x : Nat) : byteOf k x = x / 2 ^ (8 * k) % 256 := by
  unfold byteOf
  rw [and_0xFF, Nat.shiftRight_eq_div_pow]

/-- Every 32-bit value is the little-endian load of its own bytes. -/
theorem load32_pixelBytes (P : Nat) (hP : P < 2 ^ 32) : load32 (pixelBytes P) 0 = P := by
  have h0 := byteOf_lt 0 P
  have h1 := byteOf_lt 1 P
  have h2 := byteOf_lt 2 P
  have h3 := byteOf_lt 3 P
  have e : load32 (pixelBytes P) 0
      = byteOf 0 P + 256 * byteOf 1 P + 65536 * (byteOf 2 P + 256 * byteOf 3 P) := by
    simp only [load32, load16, load8, pixelBytes, Nat.zero_add, Nat.reduceAdd,
      Nat.mod_eq_of_lt h0, Nat.mod_eq_of_lt h1, Nat.mod_eq_of_lt h2, Nat.mod_eq_of_lt h3]
  rw [e]
  simp only [byteOf_eq, Nat.reduceMul, Nat.reducePow, Nat.pow_zero, Nat.div_one]
  omega

/-- Every 16-bit value is the little-endian load of its own bytes. -/
theorem load16_pixelBytes (P : Nat) (hP : P < 2 ^ 16) : load16 (pixelBytes P) 0 = P := by
  have h0 := byteOf_lt 0 P
  have h1 := byteOf_lt 1 P
  have e : load16 (pixelBytes P) 0 = byteOf 0 P + 256 * byteOf 1 P := by
    simp only [load16, load8, pixelBytes, Nat.zero_add,
      Nat.mod_eq_of_lt h0, Nat.mod_eq_of_lt h1]
  rw [e]
  simp only [byteOf_eq, Nat.reduceMul, Nat.reducePow, Nat.pow_zero, Nat.div_one]
  omega

/-! ### C1: the XRGB8888 blit -/

/-- C1. Let `P` be any 32-bit source pixel, at row `y` and column `x` of a frame passed to
the video refresh callback in the XRGB8888 format. The store the blit makes for it is a
4-byte store at `dstLine[x]` of row `y` whose value `D` is the conversion of `P`: the top
byte of `D` is `0xFF`, byte 0 of `D` is byte 2 of `P`, byte 2 of `D` is byte 0 of `P` and
byte 1 of `D` is byte 1 of `P`. The top byte of `P` has no influence: a pixel `Q` of any
frame that agrees with `P` on bytes 0, 1 and 2 is stored as the same `D`. The blit makes
one store per source pixel, and every 32-bit value occurs as a source pixel. -/
theorem xrgb8888_swaps_red_blue_and_sets_alpha (P : Nat) (hP : P < 2 ^ 32)
    (data : Nat → Nat) (width height pitch stride y x : Nat) (hy : y < height) (hx : x < width)
    (hsrc : load32 data (y * pitch + 4 * x) = P) :
    (∃ s, pixelStore RETRO_PIXEL_FORMAT_XRGB8888 data width height pitch stride y x = some s ∧
      s.offset = dstLine y stride 4 + 4 * x ∧ s.size = 4 ∧
      s.value = convertXRGB8888 P ∧
      byteOf 3 s.value = 0xFF ∧
      byteOf 0 s.value = byteOf 2 P ∧
      byteOf 2 s.value = byteOf 0 P ∧
      byteOf 1 s.value = byteOf 1 P ∧
      (∀ (Q : Nat) (data2 : Nat → Nat) (width2 height2 pitch2 stride2 y2 x2 : Nat),
        Q < 2 ^ 32 → y2 < height2 → x2 < width2 →
        load32 data2 (y2 * pitch2 + 4 * x2) = Q →
        byteOf 0 Q = byteOf 0 P → byteOf 1 Q = byteOf 1 P → byteOf 2 Q = byteOf 2 P →
        ∃ s2, pixelStore RETRO_PIXEL_FORMAT_XRGB8888 data2 width2 height2 pitch2 stride2 y2 x2
            = some s2 ∧ s2.value = s.value)) ∧
    (VideoRefreshCallback (some data) true RETRO_PIXEL_FORMAT_XRGB8888 (some stride) width
      height pitch).length = height * width ∧
    byteOf 3 (convertXRGB8888 P) = 0xFF ∧
    byteOf 0 (convertXRGB8888 P) = byteOf 2 P ∧
    byteOf 2 (convertXRGB8888 P) = byteOf 0 P ∧
    byteOf 1 (convertXRGB8888 P) = byteOf 1 P ∧
    (∀ Q, Q < 2 ^ 32 → byteOf 0 Q = byteOf 0 P → byteOf 1 Q = byteOf 1 P →
      byteOf 2 Q = byteOf 2 P → convertXRGB8888 Q = convertXRGB8888 P) ∧
    (∃ data0, load32 data0 0 = P) := by
  have h := byteOf_compose (byteOf 2 P) (byteOf 1 P) (byteOf 0 P) 255
    (byteOf_lt _ _) (byteOf_lt _ _) (byteOf_lt _ _) (by omega)
  rw [← convertXRGB8888_bytes] at h
  have hst := pixelStore_XRGB8888 data width height pitch stride y x hy hx
  rw [hsrc] at hst
  refine ⟨⟨_, hst, rfl, rfl, rfl, h.2.2.2, h.1, h.2.2.1, h.2.1, ?_⟩,
    VideoRefreshCallback_XRGB8888_length data width height pitch stride,
    h.2.2.2, h.1, h.2.2.1, h.2.1, ?_, ⟨pixelBytes P, load32_pixelBytes P hP⟩⟩
  · intro Q data2 width2 height2 pitch2 stride2 y2 x2 _ hy2 hx2 hsrc2 q0 q1 q2
    have hst2 := pixelStore_XRGB8888 data2 width2 height2 pitch2 stride2 y2 x2 hy2 hx2
    rw [hsrc2] at hst2
    refine ⟨_, hst2, ?_⟩
    simp only
    rw [convertXRGB8888_bytes Q, convertXRGB8888_bytes P, q0, q1, q2]
  · intro Q _ q0 q1 q2
    rw [convertXRGB8888_bytes Q, convertXRGB8888_bytes P, q0, q1, q2]

/-- C1 on the 1 x 1 frame whose pixel is `0x11223344`: the blit stores `0xFF443322` at
offset 0, and the frame whose pixel is `0xAB223344` gets the same value. -/
theorem xrgb8888_swaps_red_blue_and_sets_alpha_witness :
    (0x11223344 : Nat) < 2 ^ 32 ∧ (0 : Nat) < 1 ∧
    load32 (pixelBytes 0x11223344) (0 * 4 + 4 * 0) = 0x11223344 ∧
    pixelStore RETRO_PIXEL_FORMAT_XRGB8888 (pixelBytes 0x11223344) 1 1 4 1 0 0
      = some { offset := 0, size := 4, value := 0xFF443322 } ∧
    pixelStore RETRO_PIXEL_FORMAT_XRGB8888 (pixelBytes 0xAB223344) 1 1 4 1 0 0
      = some { offset := 0, size := 4, value := 0xFF443322 } ∧
    (∃ s, pixelStore RETRO_PIXEL_FORMAT_XRGB8888 (pixelBytes 0x11223344) 1 1 4 1 0 0 = some s ∧
      byteOf 3 s.value = 0xFF ∧ byteOf 0 s.value = byteOf 2 0x11223344) ∧
    convertXRGB8888 0xAB223344 = convertXRGB8888 0x11223344 := by
  have h := xrgb8888_swaps_red_blue_and_sets_alpha 0x11223344 (by norm_num)
    (pixelBytes 0x11223344) 1 1 4 1 0 0 (by norm_num) (by norm_num) (by decide)
  obtain ⟨⟨s, hs, _, _, _, h3, h0, _, _, _⟩, _, _, _, _, _, hQ, _⟩ := h
  exact ⟨by norm_num, by norm_num, by decide, by decide, by decide, ⟨s, hs, h3, h0⟩,
    hQ 0xAB223344 (by norm_num) (by decide) (by decide) (by decide)⟩


/-! ### C10: the 0RGB1555 repacking -/

theorem bitField_eq (lo len x : Nat) : bitField lo len x = x / 2 ^ lo % 2 ^ len := by
  unfold bitField
  rw [Nat.and_pow_two_sub_one_eq_mod, Nat.shiftRight_eq_div_pow]

theorem bitField_lt (lo len x : Nat) : bitField lo len x < 2 ^ len := by
  rw [bitField_eq]
  exact Nat.mod_lt _ (by positivity)

/-- The 0RGB1555 conversion, field by field. -/
theorem convert0RGB1555_fields (p : Nat) :
    convert0RGB1555 p
      = bitField 10 5 p * 2048 + bitField 5 5 p * 64 + bitField 0 5 p := by
  have hr := bitField_lt 10 5 p
  have hg := bitField_lt 5 5 p
  have hb := bitField_lt 0 5 p
  have er : (p >>> 10) &&& 0x1F = bitField 10 5 p := rfl
  have eg : (p >>> 5) &&& 0x1F = bitField 5 5 p := rfl
  have eb : p &&& 0x1F = bitField 0 5 p := by simp [bitField]
  unfold convert0RGB1555 u16
  rw [er, eg, eb]
  generalize bitField 10 5 p = r at *
  generalize bitField 5 5 p = g at *
  generalize bitField 0 5 p = b at *
  simp only [Nat.shiftLeft_eq]
  rw [Nat.or_assoc, or_eq_add_of_lt g b 6 (by omega), or_eq_add_of_lt r _ 11 (by omega)]
  omega

theorem bitField_compose (r g b : Nat) (hr : r < 32) (hg : g < 32) (hb : b < 32) :
    bitField 11 5 (r * 2048 + g * 64 + b) = r ∧
    bitField 0 5 (r * 2048 + g * 64 + b) = b ∧
    bitField 6 5 (r * 2048 + g * 64 + b) = g ∧
    bitField 5 1 (r * 2048 + g * 64 + b) = 0 ∧
    bitField 5 6 (r * 2048 + g * 64 + b) = 2 * g := by
  simp only [bitField_eq, Nat.reducePow]
  refine ⟨by omega, by omega, by omega, by omega, by omega⟩

theorem bitField_of_mod_eq (P Q : Nat) (h : Q % 2 ^ 15 = P % 2 ^ 15) :
    bitField 10 5 Q = bitField 10 5 P ∧ bitField 5 5 Q = bitField 5 5 P ∧
    bitField 0 5 Q = bitField 0 5 P := by
  simp only [bitField_eq, Nat.reducePow] at *
  refine ⟨by omega, by omega, by omega⟩

/-- C10. Let `P` be any 16-bit source pixel, at row `y` and column `x` of a frame passed to
the video refresh callback in the 0RGB1555 format, with fields R (bits 10..14), G (bits
5..9) and B (bits 0..4). The store the blit makes for it is a 2-byte store at `dstLine[x]`
of row `y` whose value `D` has bits 11..15 equal to R, bits 0..4 equal to B, bits 6..10
equal to G and bit 5 zero, so that its 6-bit green field (bits 5..10) is `2 * G`. Source bit
15 has no influence: a pixel `Q` of any frame that agrees with `P` on bits 0..14 is stored
as the same `D`. The blit makes one store per source pixel, and every 16-bit value occurs
as a source pixel. -/
theorem rgb1555_repacked_to_rgb565 (P : Nat) (hP : P < 2 ^ 16)
    (data : Nat → Nat) (width height pitch stride y x : Nat) (hy : y < height) (hx : x < width)
    (hsrc : load16 data (y * pitch + 2 * x) = P) :
    (∃ s, pixelStore RETRO_PIXEL_FORMAT_0RGB1555 data width height pitch stride y x = some s ∧
      s.offset = dstLine y stride 2 + 2 * x ∧ s.size = 2 ∧
      s.value = convert0RGB1555 P ∧
      bitField 11 5 s.value = bitField 10 5 P ∧
      bitField 0 5 s.value = bitField 0 5 P ∧
      bitField 6 5 s.value = bitField 5 5 P ∧
      bitField 5 1 s.value = 0 ∧
      bitField 5 6 s.value = 2 * bitField 5 5 P ∧
      (∀ (Q : Nat) (data2 : Nat → Nat) (width2 height2 pitch2 stride2 y2 x2 : Nat),
        Q < 2 ^ 16 → y2 < height2 → x2 < width2 →
        load16 data2 (y2 * pitch2 + 2 * x2) = Q → Q % 2 ^ 15 = P % 2 ^ 15 →
        ∃ s2, pixelStore RETRO_PIXEL_FORMAT_0RGB1555 data2 width2 height2 pitch2 stride2 y2 x2
            = some s2 ∧ s2.value = s.value)) ∧
    (VideoRefreshCallback (some data) true RETRO_PIXEL_FORMAT_0RGB1555 (some stride) width
      height pitch).length = height * width ∧
    bitField 11 5 (convert0RGB1555 P) = bitField 10 5 P ∧
    bitField 0 5 (convert0RGB1555 P) = bitField 0 5 P ∧
    bitField 6 5 (convert0RGB1555 P) = bitField 5 5 P ∧
    bitField 5 1 (convert0RGB1555 P) = 0 ∧
    bitField 5 6 (convert0RGB1555 P) = 2 * bitField 5 5 P ∧
    (∀ Q, Q < 2 ^ 16 → Q % 2 ^ 15 = P % 2 ^ 15 → convert0RGB1555 Q = convert0RGB1555 P) ∧
    (∃ data0, load16 data0 0 = P) := by
  have h := bitField_compose (bitField 10 5 P) (bitField 5 5 P) (bitField 0 5 P)
    (bitField_lt _ _ _) (bitField_lt _ _ _) (bitField_lt _ _ _)
  rw [← convert0RGB1555_fields] at h
  have hst := pixelStore_0RGB1555 data width height pitch stride y x hy hx
  rw [hsrc] at hst
  have hbit : ∀ Q, Q % 2 ^ 15 = P % 2 ^ 15 → convert0RGB1555 Q = convert0RGB1555 P := by
    intro Q hQ
    obtain ⟨e1, e2, e3⟩ := bitField_of_mod_eq P Q hQ
    rw [convert0RGB1555_fields Q, convert0RGB1555_fields P, e1, e2, e3]
  refine ⟨⟨_, hst, rfl, rfl, rfl, h.1, h.2.1, h.2.2.1, h.2.2.2.1, h.2.2.2.2, ?_⟩,
    VideoRefreshCallback_0RGB1555_length data width height pitch stride,
    h.1, h.2.1, h.2.2.1, h.2.2.2.1, h.2.2.2.2, fun Q _ hQ => hbit Q hQ,
    ⟨pixelBytes P, load16_pixelBytes P hP⟩⟩
  intro Q data2 width2 height2 pitch2 stride2 y2 x2 _ hy2 hx2 hsrc2 hQ
  have hst2 := pixelStore_0RGB1555 data2 width2 height2 pitch2 stride2 y2 x2 hy2 hx2
  rw [hsrc2] at hst2
  exact ⟨_, hst2, hbit Q hQ⟩

/-- C10 on the 1 x 1 frame whose pixel is `0x7C1F` (R = 31, G = 0, B = 31): the blit stores
`0xF81F` at offset 0, and the frame whose pixel is `0xFC1F`, the same with bit 15 set, gets
the same value. -/
theorem rgb1555_repacked_to_rgb565_witness :
    (0x7C1F : Nat) < 2 ^ 16 ∧ (0 : Nat) < 1 ∧
    load16 (pixelBytes 0x7C1F) (0 * 2 + 2 * 0) = 0x7C1F ∧
    pixelStore RETRO_PIXEL_FORMAT_0RGB1555 (pixelBytes 0x7C1F) 1 1 2 1 0 0
      = some { offset := 0, size := 2, value := 0xF81F } ∧
    pixelStore RETRO_PIXEL_FORMAT_0RGB1555 (pixelBytes 0xFC1F) 1 1 2 1 0 0
      = some { offset := 0, size := 2, value := 0xF81F } ∧
    (∃ s, pixelStore RETRO_PIXEL_FORMAT_0RGB1555 (pixelBytes 0x7C1F) 1 1 2 1 0 0 = some s ∧
      bitField 11 5 s.value = bitField 10 5 0x7C1F ∧
      bitField 5 6 s.value = 2 * bitField 5 5 0x7C1F) ∧
    convert0RGB1555 0xFC1F = convert0RGB1555 0x7C1F := by
  have h := rgb1555_repacked_to_rgb565 0x7C1F (by norm_num)
    (pixelBytes 0x7C1F) 1 1 2 1 0 0 (by norm_num) (by norm_num) (by decide)
  obtain ⟨⟨s, hs, _, _, _, hr, _, _, _, hg, _⟩, _, _, _, _, _, _, hQ, _⟩ := h
  exact ⟨by norm_num, by norm_num, by decide, by decide, by decide, ⟨s, hs, hr, hg⟩,
    hQ 0xFC1F (by norm_num) (by decide)⟩

/-! ### C9: the blit and the bounds of the surface buffer -/

theorem dstLine_le (y stride bpp : Nat) : dstLine y stride bpp ≤ y * stride * bpp := by
  unfold dstLine u32
  calc (y * stride % 2 ^ 32 * bpp) % 2 ^ 32 ≤ y * stride % 2 ^ 32 * bpp := Nat.mod_le _ _
    _ ≤ y * stride * bpp := Nat.mul_le_mul_right _ (Nat.mod_le _ _)

theorem row_inside (x y width height stride : Nat) (hw : width ≤ stride) (hx : x < width)
    (hy : y < height) : y * stride + x + 1 ≤ stride * height := by
  have h1 : (y + 1) * stride ≤ height * stride := Nat.mul_le_mul_right _ hy
  rw [Nat.succ_mul, Nat.mul_comm height stride] at h1
  omega

/-- C9, as stated, fails: with the XRGB8888 format, width 2, height 1 and a locked buffer of
stride 1, the blit writes destination pixel index 1, which is not below `stride * height = 1`. -/
theorem blit_writes_past_buffer_when_stride_lt_width :
    ¬ (∀ s ∈ VideoRefreshCallback (some (fun _ => 0)) true RETRO_PIXEL_FORMAT_XRGB8888
          (some 1) 2 1 8, s.index < 1 * 1) := by
  decide

/-- C9, amended. Whenever the stride of the locked buffer is at least the width passed to
the video refresh callback, then for every pixel format, height and source pitch every
store of the blit ends at or before byte `stride * height * bpp` of the buffer (`bpp` is 4
for XRGB8888 and 2 otherwise), and in the two converting paths every destination pixel
index written is below `stride * height`. -/
theorem blit_inside_buffer_of_width_le_stride (data : Option (Nat → Nat)) (window : Bool)
    (format : Int) (stride width height pitch : Nat) (hw : width ≤ stride) :
    ∀ s ∈ VideoRefreshCallback data window format (some stride) width height pitch,
      s.offset + s.size
          ≤ stride * height * (if format = RETRO_PIXEL_FORMAT_XRGB8888 then 4 else 2) ∧
      (format = RETRO_PIXEL_FORMAT_XRGB8888 ∨ format = RETRO_PIXEL_FORMAT_0RGB1555 →
        s.index < stride * height) := by
  intro s hs
  unfold VideoRefreshCallback at hs
  cases data with
  | none => simp at hs
  | some src =>
    cases window with
    | false => simp at hs
    | true =>
      simp only [Bool.not_true, Bool.false_eq_true, if_false] at hs
      by_cases h1 : format = RETRO_PIXEL_FORMAT_XRGB8888
      · rw [if_pos h1] at hs
        rw [if_pos h1]
        simp only [blitXRGB8888, List.mem_flatMap, List.mem_map, List.mem_range] at hs
        obtain ⟨y, hy, x, hx, rfl⟩ := hs
        have hd := dstLine_le y stride 4
        have hr := row_inside x y width height stride hw hx hy
        simp only [Store.index]
        refine ⟨by omega, fun _ => ?_⟩
        apply (Nat.div_lt_iff_lt_mul (by norm_num)).2
        omega
      · rw [if_neg h1] at hs
        rw [if_neg h1]
        by_cases h0 : format = RETRO_PIXEL_FORMAT_0RGB1555
        · rw [if_pos h0] at hs
          simp only [blit0RGB1555, List.mem_flatMap, List.mem_map, List.mem_range] at hs
          obtain ⟨y, hy, x, hx, rfl⟩ := hs
          have hd := dstLine_le y stride 2
          have hr := row_inside x y width height stride hw hx hy
          simp only [Store.index]
          refine ⟨by omega, fun _ => ?_⟩
          apply (Nat.div_lt_iff_lt_mul (by norm_num)).2
          omega
        · rw [if_neg h0] at hs
          simp only [blitRGB565, List.mem_flatMap, List.mem_map, List.mem_range] at hs
          obtain ⟨y, hy, i, hi, rfl⟩ := hs
          have hd := dstLine_le y stride 2
          have hi2 : i < width * 2 := lt_of_lt_of_le hi (Nat.mod_le _ _)
          have hr : (y + 1) * stride ≤ height * stride := Nat.mul_le_mul_right _ hy
          rw [Nat.succ_mul, Nat.mul_comm height stride] at hr
          refine ⟨by simp only; omega, fun h => ?_⟩
          rcases h with h | h
          · exact absurd h h1
          · exact absurd h h0

/-- C9 (amended) on a 2 x 2 XRGB8888 frame blitted into a buffer of stride 3: the last store
is pixel index 4, below `3 * 2`. -/
theorem blit_inside_buffer_of_width_le_stride_witness :
    (2 : Nat) ≤ 3 ∧
    (VideoRefreshCallback (some (fun _ => 0)) true RETRO_PIXEL_FORMAT_XRGB8888 (some 3) 2 2 8).map
      Store.index = [0, 1, 3, 4] ∧
    ∀ s ∈ VideoRefreshCallback (some (fun _ => 0)) true RETRO_PIXEL_FORMAT_XRGB8888 (some 3) 2 2 8,
      s.offset + s.size
          ≤ 3 * 2 * (if RETRO_PIXEL_FORMAT_XRGB8888 = RETRO_PIXEL_FORMAT_XRGB8888 then 4 else 2) ∧
      (RETRO_PIXEL_FORMAT_XRGB8888 = RETRO_PIXEL_FORMAT_XRGB8888 ∨
          RETRO_PIXEL_FORMAT_XRGB8888 = RETRO_PIXEL_FORMAT_0RGB1555 →
        s.index < 3 * 2) :=
  ⟨by decide, by decide,
    blit_inside_buffer_of_width_le_stride (some (fun _ => 0)) true RETRO_PIXEL_FORMAT_XRGB8888
      3 2 2 8 (by decide)⟩

/-! ### C2, C3: input bits -/

theorem shl1_of_lt (i : Nat) (h : i < 32) : shl1 (i : Int) = some (2 ^ i) := by
  unfold shl1
  rw [if_pos ⟨by omega, by omega⟩, Int.toNat_ofNat, Nat.one_shiftLeft]

theorem and_two_pow_ne_zero (b j : Nat) : b &&& 2 ^ j ≠ 0 ↔ b.testBit j = true := by
  rw [Nat.and_two_pow]
  cases h : b.testBit j <;> simp

theorem testBit_set (bits i j : Nat) (hj : j < 16) :
    (u16 (bits ||| 2 ^ i)).testBit j = (bits.testBit j || decide (i = j)) := by
  unfold u16
  rw [Nat.testBit_mod_two_pow, Nat.testBit_or, Nat.testBit_two_pow]
  simp [hj]

theorem testBit_clear (bits i j : Nat) (hj : j < 16) :
    (u16 (bits &&& (2 ^ i ^^^ 0xFFFFFFFF))).testBit j = (bits.testBit j && !decide (i = j)) := by
  unfold u16
  have e : (0xFFFFFFFF : Nat) = 2 ^ 32 - 1 := by norm_num
  rw [e, Nat.testBit_mod_two_pow, Nat.testBit_and, Nat.testBit_xor, Nat.testBit_two_pow,
    Nat.testBit_two_pow_sub_one]
  have : j < 32 := by omega
  simp [hj, this]

theorem InputStateCallback_eq (bits j : Nat) (hj : j < 32) :
    InputStateCallback bits 0 RETRO_DEVICE_JOYPAD 0 j
      = some (if bits.testBit j then 1 else 0) := by
  unfold InputStateCallback
  rw [if_pos ⟨rfl, rfl, rfl⟩, shl1_of_lt j hj]
  simp only [and_two_pow_ne_zero]

theorem sendInput_eq (bits i : Nat) (v : Int) (hi : i < 32) :
    sendInput bits i v
      = some (if v ≠ 0 then u16 (bits ||| 2 ^ i) else u16 (bits &&& (2 ^ i ^^^ 0xFFFFFFFF))) := by
  unfold sendInput
  rw [shl1_of_lt i hi]
  by_cases hv : v = 0 <;> simp [hv]

/-- C2, as stated, fails: from the all-zero bitmap, `sendInput(16, 1)` leaves the bitmap at
zero (bit 16 is lost when the result is stored into the 16-bit bitmap), and the query for id
16 returns 0 although the value sent was non-zero. -/
theorem sendInput_id_16_not_observed :
    sendInput 0 16 1 = some 0 ∧
    (sendInput 0 16 1).bind (fun b => InputStateCallback b 0 RETRO_DEVICE_JOYPAD 0 16)
      ≠ some (if (1 : Int) ≠ 0 then 1 else 0) := by
  decide

/-- C2, amended. For every prior 16-bit input bitmap, every button id `i` in 0..15 and every
value `v`, after `sendInput(i, v)` the input-state callback queried with port 0, device
JOYPAD, index 0 and id `i` returns 1 if `v != 0` and 0 if `v == 0`. -/
theorem sendInput_then_query_same_id (bits i : Nat) (v : Int) (_hb : bits < 2 ^ 16)
    (hi : i < 16) :
    (sendInput bits i v).bind (fun b => InputStateCallback b 0 RETRO_DEVICE_JOYPAD 0 i)
      = some (if v ≠ 0 then 1 else 0) := by
  rw [sendInput_eq bits i v (by omega), Option.some_bind, InputStateCallback_eq _ i (by omega)]
  by_cases hv : v = 0
  · simp [hv, testBit_clear bits i i hi]
  · simp [hv, testBit_set bits i i hi]

/-- C2 (amended) at the bitmap `0xFFFF`, id 15 and value 0: the bit is cleared and the query
returns 0. -/
theorem sendInput_then_query_same_id_witness :
    (0xFFFF : Nat) < 2 ^ 16 ∧ (15 : Nat) < 16 ∧ sendInput 0xFFFF 15 0 = some 0x7FFF ∧
    (sendInput 0xFFFF (15 : Nat) 0).bind
        (fun b => InputStateCallback b 0 RETRO_DEVICE_JOYPAD 0 15)
      = some (if (0 : Int) ≠ 0 then 1 else 0) :=
  ⟨by norm_num, by norm_num, by decide,
    sendInput_then_query_same_id 0xFFFF 15 0 (by norm_num) (by norm_num)⟩

/-- C3. For every prior 16-bit input bitmap, every value `v` and distinct button ids `i`, `j`
in 0..15, `sendInput(i, v)` leaves the answer of the input-state query (port 0, joypad, index
0) for id `j` as it was; and from the initial all-zero bitmap, after `sendInput(0, 1)` and
`sendInput(4, 1)` the queries for ids 0 and 4 return 1 and the query for id 1 returns 0. -/
theorem sendInput_bits_independent (bits i j : Nat) (v : Int) (_hb : bits < 2 ^ 16)
    (hi : i < 16) (hj : j < 16) (hij : i ≠ j) :
    (sendInput bits i v).bind (fun b => InputStateCallback b 0 RETRO_DEVICE_JOYPAD 0 j)
      = InputStateCallback bits 0 RETRO_DEVICE_JOYPAD 0 j ∧
    ∃ b, (sendInput 0 0 1).bind (fun b0 => sendInput b0 4 1) = some b ∧
      InputStateCallback b 0 RETRO_DEVICE_JOYPAD 0 0 = some 1 ∧
      InputStateCallback b 0 RETRO_DEVICE_JOYPAD 0 4 = some 1 ∧
      InputStateCallback b 0 RETRO_DEVICE_JOYPAD 0 1 = some 0 := by
  constructor
  · rw [sendInput_eq bits i v (by omega), Option.some_bind,
      InputStateCallback_eq _ j (by omega), InputStateCallback_eq _ j (by omega)]
    by_cases hv : v = 0
    · simp [hv, testBit_clear bits i j hj, hij]
    · simp [hv, testBit_set bits i j hj, hij]
  · exact ⟨17, by decide, by decide, by decide, by decide⟩

/-- C3 at the bitmap `0x0011`, clearing id 4 and asking for id 0: the answer stays 1. -/
theorem sendInput_bits_independent_witness :
    (0x0011 : Nat) < 2 ^ 16 ∧ (4 : Nat) < 16 ∧ (0 : Nat) < 16 ∧ (4 : Nat) ≠ 0 ∧
    (sendInput 0x0011 (4 : Nat) 0).bind
        (fun b => InputStateCallback b 0 RETRO_DEVICE_JOYPAD 0 0)
      = InputStateCallback 0x0011 0 RETRO_DEVICE_JOYPAD 0 0 ∧
    InputStateCallback 0x0011 0 RETRO_DEVICE_JOYPAD 0 0 = some 1 :=
  ⟨by norm_num, by norm_num, by norm_num, by norm_num,
    (sendInput_bits_independent 0x0011 4 0 0 (by norm_num) (by norm_num) (by norm_num)
      (by norm_num)).1, by decide⟩

/-! ### C4: `quitGame` -/

theorem nativeQuitGame_fields (h : Host) :
    (nativeQuitGame h).g_isRunning = false ∧ (nativeQuitGame h).g_emuThread = false := by
  cases ht : h.g_emuThread <;> cases hu : h.syms.core_unload_game <;>
    simp [nativeQuitGame, Host.joinEmuThread, Host.callIf, Host.emit, ht, hu]

/-- C4. For every host state, after `nativeQuitGame` returns the running flag is false, the
emulation thread has been joined (`g_emuThread` is not joinable and no emulation thread is
live) and the audio stage write cursor is zero; the join, when there is a thread, comes
before the call of `core_unload_game`. -/
theorem nativeQuitGame_stops_thread_and_clears_audio (h : Host) :
    (nativeQuitGame h).g_isRunning = false ∧
    (nativeQuitGame h).g_emuThread = false ∧
    (nativeQuitGame h).liveThreads = 0 ∧
    (nativeQuitGame h).g_audioBufferPos = 0 ∧
    (nativeQuitGame h).trace
      = h.trace ++ (if h.g_emuThread then [Effect.join] else [])
          ++ (if h.syms.core_unload_game then [Effect.core_unload_game] else []) := by
  cases ht : h.g_emuThread <;> cases hu : h.syms.core_unload_game <;>
    simp [nativeQuitGame, Host.joinEmuThread, Host.callIf, Host.emit, Host.liveThreads, ht, hu]

/-! ### C5: at most one emulation thread -/

theorem callIf_fields (h : Host) (fn : Bool) (e : Effect) :
    (h.callIf fn e).g_emuThread = h.g_emuThread ∧ (h.callIf fn e).g_isRunning = h.g_isRunning ∧
    (h.callIf fn e).g_coreHandle = h.g_coreHandle ∧ (h.callIf fn e).syms = h.syms := by
  cases fn <;> simp [Host.callIf, Host.emit]

theorem loadCore_keeps_thread (h : Host) (dl : Dlopen) :
    (loadCore h dl).2.g_emuThread = h.g_emuThread ∧
    (loadCore h dl).2.g_isRunning = h.g_isRunning := by
  cases dl with
  | failed err =>
    cases hc : h.g_coreHandle <;> cases hd : h.syms.core_deinit <;>
      simp [loadCore, Host.callIf, Host.emit, hc, hd]
  | opened ex =>
    cases hc : h.g_coreHandle <;> cases hd : h.syms.core_deinit <;>
      by_cases hq : (!ex.core_init || !ex.core_load_game || !ex.core_run) = true <;>
      simp [loadCore, Host.emit, hc, hd, hq, callIf_fields]

theorem nativeLoadGame_spec (h : Host) (success : Bool) (hinv : ThreadMatchesFlag h) :
    ∃ r h1, nativeLoadGame h success = some (r, h1) ∧ ThreadMatchesFlag h1 := by
  unfold ThreadMatchesFlag at hinv
  by_cases hg : (!h.g_coreHandle || !h.syms.core_load_game) = true
  · exact ⟨false, h, by simp [nativeLoadGame, hg], hinv⟩
  · cases hr : h.g_isRunning <;> cases hu : h.syms.core_unload_game <;> cases success <;>
      simp [nativeLoadGame, hg, hr, hu, hinv, Host.joinEmuThread, Host.callIf, Host.emit,
        ThreadMatchesFlag]

theorem enter_preserves (h h1 : Host) (e : Entry) (hinv : ThreadMatchesFlag h)
    (he : h.enter e = some h1) : ThreadMatchesFlag h1 := by
  cases e with
  | loadCore dl =>
    simp only [Host.enter, Option.some.injEq] at he
    subst he
    have k := loadCore_keeps_thread h dl
    unfold ThreadMatchesFlag at *
    rw [k.1, k.2, hinv]
  | nativeLoadGame success =>
    obtain ⟨r, h2, e2, i2⟩ := nativeLoadGame_spec h success hinv
    simp only [Host.enter, e2, Option.map_some', Option.some.injEq] at he
    subst he
    exact i2
  | nativeQuitGame =>
    simp only [Host.enter, Option.some.injEq] at he
    subst he
    have k := nativeQuitGame_fields h
    unfold ThreadMatchesFlag
    rw [k.1, k.2]
  | sendInput buttonId value =>
    simp only [Host.enter, Option.map_eq_some'] at he
    obtain ⟨bits, _, rfl⟩ := he
    exact hinv
  | resetGame =>
    simp only [Host.enter, Option.some.injEq] at he
    subst he
    unfold ThreadMatchesFlag at *
    simp only [resetGame, callIf_fields, hinv]
  | setSurface surface fromSurface =>
    simp only [Host.enter, Option.some.injEq] at he
    subst he
    unfold ThreadMatchesFlag at *
    cases surface <;> cases hw : h.g_nativeWindow <;> simp [setSurface, hw, hinv]
  | saveState size malloc =>
    simp only [Host.enter, Option.some.injEq] at he
    subst he
    unfold ThreadMatchesFlag at *
    unfold saveState
    split_ifs <;> simp [Host.emit, hinv]
  | loadState fileRead =>
    simp only [Host.enter, Option.some.injEq] at he
    subst he
    unfold ThreadMatchesFlag at *
    unfold loadState
    split_ifs <;> simp [Host.emit, hinv]
  | nativePauseGame | nativeResumeGame | setFastForward _ | updateNativeActivity
  | setSystemDirectories | setCheat | getNativeFps =>
    simp only [Host.enter, Option.some.injEq] at he
    subst he
    exact hinv

theorem step_preserves (h h1 : Host) (a : Action) (hinv : ThreadMatchesFlag h)
    (hs : h.step a = some h1) : ThreadMatchesFlag h1 := by
  cases a with
  | ffi e => exact enter_preserves h h1 e hinv hs
  | emulation pos fmt =>
    unfold Host.step at hs
    split_ifs at hs <;> simp only [Option.some.injEq] at hs <;> subst hs <;> exact hinv

theorem run_preserves (acts : List Action) :
    ∀ h h1 : Host, ThreadMatchesFlag h → h.run acts = some h1 → ThreadMatchesFlag h1 := by
  induction acts with
  | nil =>
    intro h h1 hinv hr
    simp only [Host.run, Option.some.injEq] at hr
    subst hr
    exact hinv
  | cons a rest ih =>
    intro h h1 hinv hr
    simp only [Host.run, Option.bind_eq_some] at hr
    obtain ⟨h2, hs, hr2⟩ := hr
    exact ih h2 h1 (step_preserves h h2 a hinv hs) hr2

theorem init_threadMatchesFlag : ThreadMatchesFlag Host.init := rfl

theorem playing_reachable :
    Host.init.run [Action.ffi (Entry.loadCore (Dlopen.opened SymbolTable.full)),
      Action.ffi (Entry.nativeLoadGame true)] = some Host.playing := by
  decide

theorem nativeLoadGame_restart (h h1 : Host) (hinv : ThreadMatchesFlag h)
    (hrun : h.g_isRunning = true) (hl : nativeLoadGame h true = some (true, h1)) :
    h1.liveThreads = 1 ∧ h1.g_isRunning = true ∧
    h1.trace = h.trace ++ [Effect.join]
      ++ (if h.syms.core_unload_game then [Effect.core_unload_game] else [])
      ++ [Effect.core_load_game, Effect.spawn] := by
  unfold ThreadMatchesFlag at hinv
  rw [hrun] at hinv
  by_cases hg : (!h.g_coreHandle || !h.syms.core_load_game) = true
  · simp [nativeLoadGame, hg] at hl
  · cases hu : h.syms.core_unload_game <;>
      simp [nativeLoadGame, hg, hrun, hu, hinv, Host.joinEmuThread, Host.callIf,
        Host.emit] at hl <;>
      subst hl <;> simp [Host.liveThreads]

/-- C5. In every host state reached from process start by a sequence of entry-point calls
(interleaved with the activity of the emulation thread), at most one emulation thread is
live and one is live exactly when the running flag is true; `nativeLoadGame` never reaches
its thread assignment with a thread still joinable; and a successful `nativeLoadGame` made
while a game is running joins the first thread before it calls `core_load_game` and spawns,
leaving exactly one live thread. -/
theorem at_most_one_emulation_thread (acts : List Action) (h : Host)
    (hr : Host.init.run acts = some h) :
    h.liveThreads ≤ 1 ∧
    (h.liveThreads = 1 ↔ h.g_isRunning = true) ∧
    (∀ success, ∃ r h1, nativeLoadGame h success = some (r, h1)) ∧
    (∀ h1, h.g_isRunning = true → nativeLoadGame h true = some (true, h1) →
      h1.liveThreads = 1 ∧ h1.g_isRunning = true ∧
      h1.trace = h.trace ++ [Effect.join]
        ++ (if h.syms.core_unload_game then [Effect.core_unload_game] else [])
        ++ [Effect.core_load_game, Effect.spawn]) := by
  have hinv : ThreadMatchesFlag h := run_preserves acts Host.init h init_threadMatchesFlag hr
  refine ⟨?_, ?_, ?_, ?_⟩
  · unfold Host.liveThreads
    split_ifs <;> omega
  · unfold ThreadMatchesFlag at hinv
    unfold Host.liveThreads
    rw [← hinv]
    cases h.g_emuThread <;> simp
  · intro success
    obtain ⟨r, h1, e, _⟩ := nativeLoadGame_spec h success hinv
    exact ⟨r, h1, e⟩
  · intro h1 hrun hl
    exact nativeLoadGame_restart h h1 hinv hrun hl

/-- C5 on the run `loadCore`, `nativeLoadGame`: one thread is live, and a second successful
`nativeLoadGame` joins it, unloads the game, loads and spawns, leaving one live thread. -/
theorem at_most_one_emulation_thread_witness :
    Host.init.run [Action.ffi (Entry.loadCore (Dlopen.opened SymbolTable.full)),
      Action.ffi (Entry.nativeLoadGame true)] = some Host.playing ∧
    Host.playing.liveThreads = 1 ∧
    ∃ h1, nativeLoadGame Host.playing true = some (true, h1) ∧ h1.liveThreads = 1 ∧
      h1.trace = Host.playing.trace
        ++ [Effect.join, Effect.core_unload_game, Effect.core_load_game, Effect.spawn] := by
  have k := at_most_one_emulation_thread _ Host.playing playing_reachable
  refine ⟨playing_reachable, k.2.1.2 rfl, ?_⟩
  obtain ⟨r, h1, e⟩ := k.2.2.1 true
  have hr : r = true := by
    have e2 : (nativeLoadGame Host.playing true).map Prod.fst = some true := by decide
    rw [e] at e2
    simpa using e2
  subst hr
  have k2 := k.2.2.2 h1 rfl e
  exact ⟨h1, e, k2.1, by rw [k2.2.2]; simp [Host.playing, SymbolTable.full]⟩

/-! ### C6: `loadCore` while a game is running -/

/-- C6 fails on the code. In the state `Host.playing` (running flag set, emulation thread
live) a successful `loadCore` calls the previous core's `core_deinit` and `dlclose` without
any `join` before them, and returns with the running flag still true and the emulation
thread still live. -/
theorem loadCore_while_running_does_not_stop :
    Host.playing.g_isRunning = true ∧ Host.playing.liveThreads = 1 ∧
    (loadCore Host.playing (Dlopen.opened SymbolTable.full)).1 = none ∧
    (loadCore Host.playing (Dlopen.opened SymbolTable.full)).2.g_isRunning = true ∧
    (loadCore Host.playing (Dlopen.opened SymbolTable.full)).2.liveThreads = 1 ∧
    (loadCore Host.playing (Dlopen.opened SymbolTable.full)).2.trace
      = Host.playing.trace ++ [Effect.core_deinit, Effect.dlclose, Effect.dlopen,
          Effect.core_set_environment, Effect.core_set_video_refresh,
          Effect.core_set_audio_sample, Effect.core_set_audio_sample_batch,
          Effect.core_set_input_poll, Effect.core_set_input_state, Effect.core_init] := by
  decide

/-! ### C7: a failed `loadCore` -/

/-- C7 fails on the code. (a) With a core resident (`Host.playing` after `nativeQuitGame`),
a `loadCore` whose `dlopen` fails returns the error text and nulls the handle, yet leaves
all sixteen function pointers non-null, and a following `resetGame` calls `core_reset`
through the stale pointer. (b) From process start, a `loadCore` of an object that exports
`retro_init` only returns "Core missing required functions" and nulls the handle, yet
leaves `core_init` non-null. -/
theorem failed_loadCore_leaves_function_pointers :
    (loadCore (nativeQuitGame Host.playing) (Dlopen.failed "dlopen failed")).1
      = some "dlopen failed" ∧
    (loadCore (nativeQuitGame Host.playing) (Dlopen.failed "dlopen failed")).2.g_coreHandle
      = false ∧
    (loadCore (nativeQuitGame Host.playing) (Dlopen.failed "dlopen failed")).2.syms
      = SymbolTable.full ∧
    (resetGame (loadCore (nativeQuitGame Host.playing) (Dlopen.failed "dlopen failed")).2).trace
      = (loadCore (nativeQuitGame Host.playing) (Dlopen.failed "dlopen failed")).2.trace
          ++ [Effect.core_reset] ∧
    (loadCore Host.init (Dlopen.opened { SymbolTable.null with core_init := true })).1
      = some "Core missing required functions" ∧
    (loadCore Host.init
      (Dlopen.opened { SymbolTable.null with core_init := true })).2.g_coreHandle = false ∧
    (loadCore Host.init
      (Dlopen.opened { SymbolTable.null with core_init := true })).2.syms.core_init = true := by
  decide

/-! ### C8: one pass of the pacer loop -/

theorem GameLoopBody_unpaused (env : Bool) (f : Frame) (s : Pacer) (hp : f.paused = false) :
    (GameLoopBody true env f s).coreRunCalls = s.coreRunCalls + 1 ∧
    (GameLoopBody true env f s).nextFrameTime
      = if f.fastForward then s.nextFrameTime else s.nextFrameTime + frameTime := by
  unfold GameLoopBody
  cases hf : f.fastForward <;> simp only [hp] <;> split_ifs <;> simp_all

theorem GameLoopFrom_unpaused (env : Bool) (frames : List Frame) :
    ∀ s : Pacer, (∀ g ∈ frames, g.paused = false ∧ g.fastForward = false) →
      (GameLoopFrom true env s frames).nextFrameTime
          = s.nextFrameTime + (frames.length : Int) * frameTime ∧
      (GameLoopFrom true env s frames).coreRunCalls = s.coreRunCalls + frames.length := by
  induction frames with
  | nil => intro s _; simp [GameLoopFrom]
  | cons f rest ih =>
    intro s hall
    have hf := hall f (List.mem_cons_self f rest)
    have hb := GameLoopBody_unpaused env f s hf.1
    have hrest := ih (GameLoopBody true env f s) (fun g hg => hall g (List.mem_cons_of_mem f hg))
    simp only [GameLoopFrom, List.foldl_cons] at hrest ⊢
    rw [hrest.1, hrest.2, hb.1, hb.2, hf.2]
    simp only [Bool.false_eq_true, if_false, List.length_cons, Nat.cast_add, Nat.cast_one]
    constructor
    · ring
    · omega

/-- C8. One pass of the pacer loop with `core_run` present: if paused, `core_run` is not
called and the deadline becomes the clock reading after the sleep plus 16667; if not paused
and not fast-forward, `core_run` is called once and the deadline becomes the previous
deadline plus 16667, whatever the clock reads; if not paused and fast-forward, `core_run` is
called once and the deadline is unchanged. Hence after `k` consecutive unpaused,
non-fast-forward passes the deadline is the starting deadline plus `k * 16667` and
`core_run` has been called `k` more times. -/
theorem GameLoop_pass_and_k_passes (env : Bool) (f : Frame) (s : Pacer) (frames : List Frame)
    (hframes : ∀ g ∈ frames, g.paused = false ∧ g.fastForward = false) :
    (f.paused = true →
      (GameLoopBody true env f s).coreRunCalls = s.coreRunCalls ∧
      (GameLoopBody true env f s).nextFrameTime = f.now + 16667) ∧
    (f.paused = false → f.fastForward = false →
      (GameLoopBody true env f s).coreRunCalls = s.coreRunCalls + 1 ∧
      (GameLoopBody true env f s).nextFrameTime = s.nextFrameTime + 16667) ∧
    (f.paused = false → f.fastForward = true →
      (GameLoopBody true env f s).coreRunCalls = s.coreRunCalls + 1 ∧
      (GameLoopBody true env f s).nextFrameTime = s.nextFrameTime) ∧
    (GameLoopFrom true env s frames).nextFrameTime
      = s.nextFrameTime + (frames.length : Int) * 16667 ∧
    (GameLoopFrom true env s frames).coreRunCalls = s.coreRunCalls + frames.length := by
  refine ⟨?_, ?_, ?_, GameLoopFrom_unpaused env frames s hframes⟩
  · intro hp
    simp [GameLoopBody, hp, frameTime]
  · intro hp hf
    have h := GameLoopBody_unpaused env f s hp
    rw [hf] at h
    simpa [frameTime] using h
  · intro hp hf
    have h := GameLoopBody_unpaused env f s hp
    rw [hf] at h
    simpa using h

/-- C8 on a thread started at clock reading 1000: three unpaused, non-fast-forward passes,
of which the clock readings differ widely, end with the deadline at `1000 + 3 * 16667` and
three `core_run` calls; a paused pass whose sleep ends at 900000 sets the deadline to
916667 and calls nothing. -/
theorem GameLoop_pass_and_k_passes_witness :
    (GameLoop true true 1000 0
        [{ paused := false, fastForward := false, now := 5, cursorAfterRun := 7 },
         { paused := false, fastForward := false, now := 99999, cursorAfterRun := 0 },
         { paused := false, fastForward := false, now := 0, cursorAfterRun := 1470 }]).nextFrameTime
      = 1000 + ((3 : Nat) : Int) * 16667 ∧
    (GameLoopBody true true
        { paused := true, fastForward := false, now := 900000, cursorAfterRun := 0 }
        { nextFrameTime := 1000, coreRunCalls := 4, g_audioBufferPos := 0,
          sent := [] }).nextFrameTime = 900000 + 16667 := by
  have h := GameLoop_pass_and_k_passes true
    { paused := true, fastForward := false, now := 900000, cursorAfterRun := 0 }
    { nextFrameTime := 1000, coreRunCalls := 4, g_audioBufferPos := 0, sent := [] } [] (by simp)
  have k := GameLoop_pass_and_k_passes true
    { paused := true, fastForward := false, now := 900000, cursorAfterRun := 0 }
    { nextFrameTime := 1000, coreRunCalls := 0, g_audioBufferPos := 0, sent := [] }
    [{ paused := false, fastForward := false, now := 5, cursorAfterRun := 7 },
     { paused := false, fastForward := false, now := 99999, cursorAfterRun := 0 },
     { paused := false, fastForward := false, now := 0, cursorAfterRun := 1470 }] (by decide)
  exact ⟨k.2.2.2.1, (h.1 rfl).2⟩

/-! ### C11: no green bit is lost by the 0RGB1555 repacking -/

/-- The 0RGB1555 conversion determines the three 5-bit fields of its argument. -/
theorem convert0RGB1555_fields_of_eq (P Q : Nat) (h : convert0RGB1555 P = convert0RGB1555 Q) :
    bitField 10 5 P = bitField 10 5 Q ∧ bitField 5 5 P = bitField 5 5 Q ∧
    bitField 0 5 P = bitField 0 5 Q := by
  rw [convert0RGB1555_fields, convert0RGB1555_fields] at h
  have r1 := bitField_lt 10 5 P
  have g1 := bitField_lt 5 5 P
  have b1 := bitField_lt 0 5 P
  have r2 := bitField_lt 10 5 Q
  have g2 := bitField_lt 5 5 Q
  have b2 := bitField_lt 0 5 Q
  generalize bitField 10 5 P = x1 at *
  generalize bitField 5 5 P = y1 at *
  generalize bitField 0 5 P = z1 at *
  generalize bitField 10 5 Q = x2 at *
  generalize bitField 5 5 Q = y2 at *
  generalize bitField 0 5 Q = z2 at *
  refine ⟨by omega, by omega, by omega⟩

/-- C11, as stated, fails: there are no two 16-bit source pixels, in the same frame or in
two frames passed to the video refresh callback in the 0RGB1555 format, with equal red and
blue fields and different green fields for which the blit stores the same destination
pixel. -/
theorem rgb1555_no_green_collision :
    ¬ ∃ (P Q : Nat) (data1 data2 : Nat → Nat)
        (width1 height1 pitch1 stride1 y1 x1 width2 height2 pitch2 stride2 y2 x2 : Nat)
        (s1 s2 : Store),
        P < 2 ^ 16 ∧ Q < 2 ^ 16 ∧ y1 < height1 ∧ x1 < width1 ∧ y2 < height2 ∧ x2 < width2 ∧
        load16 data1 (y1 * pitch1 + 2 * x1) = P ∧ load16 data2 (y2 * pitch2 + 2 * x2) = Q ∧
        pixelStore RETRO_PIXEL_FORMAT_0RGB1555 data1 width1 height1 pitch1 stride1 y1 x1
          = some s1 ∧
        pixelStore RETRO_PIXEL_FORMAT_0RGB1555 data2 width2 height2 pitch2 stride2 y2 x2
          = some s2 ∧
        bitField 10 5 P = bitField 10 5 Q ∧ bitField 0 5 P = bitField 0 5 Q ∧
        bitField 5 5 P ≠ bitField 5 5 Q ∧ s1.value = s2.value := by
  rintro ⟨P, Q, data1, data2, width1, height1, pitch1, stride1, y1, x1, width2, height2,
    pitch2, stride2, y2, x2, s1, s2, _, _, hy1, hx1, hy2, hx2, hsrc1, hsrc2, hs1, hs2, _, _,
    hg, hv⟩
  rw [pixelStore_0RGB1555 data1 width1 height1 pitch1 stride1 y1 x1 hy1 hx1, hsrc1,
    Option.some.injEq] at hs1
  rw [pixelStore_0RGB1555 data2 width2 height2 pitch2 stride2 y2 x2 hy2 hx2, hsrc2,
    Option.some.injEq] at hs2
  subst hs1
  subst hs2
  exact hg (convert0RGB1555_fields_of_eq P Q hv).2.1

/-- C11, amended. The 0RGB1555 repacking loses no bit of green. Let `P` and `Q` be 16-bit
source pixels of frames passed to the video refresh callback in the 0RGB1555 format. The
blit makes a store for each of them, and the five green bits of the source pixel are bits
6..10 of the stored value. If the two stored values are equal then `P` and `Q` have equal
green, red and blue fields and agree on bits 0..14, so the conversion is injective on the
green field; conversely pixels that agree on bits 0..14 are stored as equal values. -/
theorem rgb1555_repacking_keeps_green (P Q : Nat) (_hP : P < 2 ^ 16) (_hQ : Q < 2 ^ 16)
    (data1 data2 : Nat → Nat)
    (width1 height1 pitch1 stride1 y1 x1 width2 height2 pitch2 stride2 y2 x2 : Nat)
    (hy1 : y1 < height1) (hx1 : x1 < width1) (hy2 : y2 < height2) (hx2 : x2 < width2)
    (hsrc1 : load16 data1 (y1 * pitch1 + 2 * x1) = P)
    (hsrc2 : load16 data2 (y2 * pitch2 + 2 * x2) = Q) :
    ∃ s1 s2,
      pixelStore RETRO_PIXEL_FORMAT_0RGB1555 data1 width1 height1 pitch1 stride1 y1 x1
        = some s1 ∧
      pixelStore RETRO_PIXEL_FORMAT_0RGB1555 data2 width2 height2 pitch2 stride2 y2 x2
        = some s2 ∧
      bitField 6 5 s1.value = bitField 5 5 P ∧
      bitField 6 5 s2.value = bitField 5 5 Q ∧
      (s1.value = s2.value →
        bitField 5 5 P = bitField 5 5 Q ∧ bitField 10 5 P = bitField 10 5 Q ∧
        bitField 0 5 P = bitField 0 5 Q ∧ P % 2 ^ 15 = Q % 2 ^ 15) ∧
      (P % 2 ^ 15 = Q % 2 ^ 15 → s1.value = s2.value) := by
  have hst1 := pixelStore_0RGB1555 data1 width1 height1 pitch1 stride1 y1 x1 hy1 hx1
  have hst2 := pixelStore_0RGB1555 data2 width2 height2 pitch2 stride2 y2 x2 hy2 hx2
  rw [hsrc1] at hst1
  rw [hsrc2] at hst2
  have hgreen : ∀ X : Nat, bitField 6 5 (convert0RGB1555 X) = bitField 5 5 X := by
    intro X
    have h := bitField_compose (bitField 10 5 X) (bitField 5 5 X) (bitField 0 5 X)
      (bitField_lt _ _ _) (bitField_lt _ _ _) (bitField_lt _ _ _)
    rw [← convert0RGB1555_fields] at h
    exact h.2.2.1
  refine ⟨_, _, hst1, hst2, hgreen P, hgreen Q, ?_, ?_⟩
  · intro hv
    obtain ⟨hr, hg, hb⟩ := convert0RGB1555_fields_of_eq P Q hv
    refine ⟨hg, hr, hb, ?_⟩
    simp only [bitField_eq, Nat.reducePow] at hr hg hb
    omega
  · intro hmod
    obtain ⟨e1, e2, e3⟩ := bitField_of_mod_eq Q P hmod
    simp only
    rw [convert0RGB1555_fields P, convert0RGB1555_fields Q, e1, e2, e3]

/-- C11 (amended) on the 1 x 1 frames whose pixels are `0x03E0` and `0x83E0` (G = 31, without
and with bit 15): both are stored as `0x07C0`, whose bits 6..10 are 31, and the greens of the
two source pixels are equal; the frame whose pixel is `0x03C0` (G = 30) is stored as
`0x0780`. -/
theorem rgb1555_repacking_keeps_green_witness :
    (0x03E0 : Nat) < 2 ^ 16 ∧ (0x83E0 : Nat) < 2 ^ 16 ∧ (0 : Nat) < 1 ∧
    load16 (pixelBytes 0x03E0) (0 * 2 + 2 * 0) = 0x03E0 ∧
    load16 (pixelBytes 0x83E0) (0 * 2 + 2 * 0) = 0x83E0 ∧
    pixelStore RETRO_PIXEL_FORMAT_0RGB1555 (pixelBytes 0x03E0) 1 1 2 1 0 0
      = some { offset := 0, size := 2, value := 0x07C0 } ∧
    pixelStore RETRO_PIXEL_FORMAT_0RGB1555 (pixelBytes 0x83E0) 1 1 2 1 0 0
      = some { offset := 0, size := 2, value := 0x07C0 } ∧
    pixelStore RETRO_PIXEL_FORMAT_0RGB1555 (pixelBytes 0x03C0) 1 1 2 1 0 0
      = some { offset := 0, size := 2, value := 0x0780 } ∧
    bitField 6 5 0x07C0 = 31 ∧
    bitField 5 5 0x03E0 = bitField 5 5 0x83E0 ∧ 0x03E0 % 2 ^ 15 = 0x83E0 % 2 ^ 15 := by
  have h := rgb1555_repacking_keeps_green 0x03E0 0x83E0 (by norm_num) (by norm_num)
    (pixelBytes 0x03E0) (pixelBytes 0x83E0) 1 1 2 1 0 0 1 1 2 1 0 0
    (by norm_num) (by norm_num) (by norm_num) (by norm_num) (by decide) (by decide)
  obtain ⟨s1, s2, hs1, hs2, _, _, hinj, _⟩ := h
  have e1 : pixelStore RETRO_PIXEL_FORMAT_0RGB1555 (pixelBytes 0x03E0) 1 1 2 1 0 0
      = some { offset := 0, size := 2, value := 0x07C0 } := by decide
  have e2 : pixelStore RETRO_PIXEL_FORMAT_0RGB1555 (pixelBytes 0x83E0) 1 1 2 1 0 0
      = some { offset := 0, size := 2, value := 0x07C0 } := by decide
  rw [e1, Option.some.injEq] at hs1
  rw [e2, Option.some.injEq] at hs2
  have hv : s1.value = s2.value := by rw [← hs1, ← hs2]
  have k := hinj hv
  exact ⟨by norm_num, by norm_num, by norm_num, by decide, by decide, e1, e2, by decide,
    by decide, k.1, k.2.2.2⟩

/-! ### C12: the audio cursor stays below the flush threshold -/

/-- One sample with the default target: the store is at the old cursor; either the cursor
reaches 2048, is snapshot as 2048 and reset to 0, or it advances by one without a flush. -/
theorem pushSample_default (env : Bool) (sample : Int) (a : AudioStage)
    (ha : belowThreshold a.g_audioBufferPos) :
    ∃ a1, pushSample g_audioBufferSize env sample a = some a1 ∧
      a1.stores = a.stores ++ [(a.g_audioBufferPos, sample)] ∧
      ((a.g_audioBufferPos + 1 = 2048 ∧ a1.g_audioBufferPos = 0 ∧
          a1.flushes = a.flushes ++ [2048] ∧
          a1.sent = a.sent ++ (if env then [2048] else [])) ∨
       (a.g_audioBufferPos + 1 < 2048 ∧ a1.g_audioBufferPos = a.g_audioBufferPos + 1 ∧
          a1.flushes = a.flushes ∧ a1.sent = a.sent)) := by
  obtain ⟨h0, h1⟩ := ha
  have hcap : 0 ≤ a.g_audioBufferPos ∧ a.g_audioBufferPos < g_audioBufferCapacity :=
    ⟨h0, by unfold g_audioBufferCapacity; omega⟩
  have hthr : Int.tdiv g_audioBufferSize 2 = 2048 := by decide
  unfold pushSample
  rw [if_pos hcap, hthr]
  by_cases hfull : a.g_audioBufferPos + 1 = 2048
  · have hle : (2048 : Int) ≤ a.g_audioBufferPos + 1 := by omega
    simp only [if_pos hle]
    refine ⟨_, rfl, rfl, Or.inl ⟨hfull, rfl, ?_, ?_⟩⟩
    · simp only [hfull]
    · cases env <;> simp [hfull]
  · have hlt : ¬ (2048 : Int) ≤ a.g_audioBufferPos + 1 := by omega
    simp only [if_neg hlt]
    exact ⟨_, rfl, rfl, Or.inr ⟨by omega, rfl, rfl, rfl⟩⟩

/-- The loop of the batch callback with the default target, for any number of passes. -/
theorem batchLoop_default (env : Bool) (data : Nat → Int) (n : Nat) :
    ∀ (i : Nat) (a : AudioStage), belowThreshold a.g_audioBufferPos →
      ∃ a1 new k, batchLoop g_audioBufferSize env data i n a = some a1 ∧
        belowThreshold a1.g_audioBufferPos ∧
        a1.stores = a.stores ++ new ∧ new.length = n ∧
        (∀ w ∈ new, 0 ≤ w.1 ∧ w.1 < g_audioBufferCapacity) ∧
        a1.flushes = a.flushes ++ List.replicate k 2048 ∧
        a1.sent = a.sent ++ (if env then List.replicate k 2048 else []) ∧
        a.g_audioBufferPos + n = 2048 * k + a1.g_audioBufferPos := by
  induction n with
  | zero =>
    intro i a ha
    exact ⟨a, [], 0, rfl, ha, by simp, rfl, by simp, by simp, by simp, by simp⟩
  | succ n ih =>
    intro i a ha
    obtain ⟨a1, e1, hst, hcase⟩ := pushSample_default env (data i) a ha
    have hb1 : belowThreshold a1.g_audioBufferPos := by
      unfold belowThreshold at ha ⊢
      rcases hcase with ⟨_, h0, _, _⟩ | ⟨hlt, h1, _, _⟩ <;> omega
    obtain ⟨a2, new, k, e2, hb2, hst2, hlen, hidx, hfl, hse, hsum⟩ := ih (i + 1) a1 hb1
    have hrun : batchLoop g_audioBufferSize env data i (n + 1) a = some a2 := by
      simp only [batchLoop, e1, Option.some_bind, e2]
    have hw : ∀ w ∈ (a.g_audioBufferPos, data i) :: new,
        0 ≤ w.1 ∧ w.1 < g_audioBufferCapacity := by
      intro w hwmem
      rcases List.mem_cons.1 hwmem with rfl | hmem
      · unfold belowThreshold at ha
        unfold g_audioBufferCapacity
        exact ⟨ha.1, by have := ha.2; simp only; omega⟩
      · exact hidx w hmem
    rcases hcase with ⟨hfull, h0, hf1, hs1⟩ | ⟨hlt, h1, hf1, hs1⟩
    · refine ⟨a2, (a.g_audioBufferPos, data i) :: new, k + 1, hrun, hb2, ?_, ?_, hw, ?_, ?_, ?_⟩
      · rw [hst2, hst, List.append_assoc, List.singleton_append]
      · simp [hlen]
      · rw [hfl, hf1, List.append_assoc, List.singleton_append, List.replicate_succ]
      · rw [hse, hs1]
        cases env <;> simp [List.replicate_succ]
      · rw [h0] at hsum
        push_cast
        omega
    · refine ⟨a2, (a.g_audioBufferPos, data i) :: new, k, hrun, hb2, ?_, ?_, hw, ?_, ?_, ?_⟩
      · rw [hst2, hst, List.append_assoc, List.singleton_append]
      · simp [hlen]
      · rw [hfl, hf1]
      · rw [hse, hs1]
      · rw [h1] at hsum
        push_cast
        omega

theorem AudioSampleBatchCallback_default (g_fastForward env : Bool) (data : Option (Nat → Int))
    (frames : Nat) (a : AudioStage) (ha : belowThreshold a.g_audioBufferPos) :
    ∃ a1 new k,
      AudioSampleBatchCallback g_fastForward g_audioBufferSize env data frames a = some a1 ∧
      belowThreshold a1.g_audioBufferPos ∧
      a1.stores = a.stores ++ new ∧
      (∀ w ∈ new, 0 ≤ w.1 ∧ w.1 < g_audioBufferCapacity) ∧
      a1.flushes = a.flushes ++ List.replicate k 2048 ∧
      a1.sent = a.sent ++ (if env then List.replicate k 2048 else []) ∧
      a.g_audioBufferPos + new.length = 2048 * k + a1.g_audioBufferPos := by
  have hskip : ∃ a1 new k, some a = some a1 ∧ belowThreshold a1.g_audioBufferPos ∧
      a1.stores = a.stores ++ new ∧ (∀ w ∈ new, 0 ≤ w.1 ∧ w.1 < g_audioBufferCapacity) ∧
      a1.flushes = a.flushes ++ List.replicate k 2048 ∧
      a1.sent = a.sent ++ (if env then List.replicate k 2048 else []) ∧
      a.g_audioBufferPos + new.length = 2048 * k + a1.g_audioBufferPos :=
    ⟨a, [], 0, rfl, ha, by simp, by simp, by simp, by simp, by simp⟩
  unfold AudioSampleBatchCallback
  cases data with
  | none => exact hskip
  | some src =>
    by_cases hq : (g_fastForward || frames == 0) = true
    · simp only [hq, if_true]
      exact hskip
    · simp only [hq, if_false]
      obtain ⟨a1, new, k, e, hb, hst, hlen, hidx, hfl, hse, hsum⟩ :=
        batchLoop_default env src (toInt32 (frames * 2)).toNat 0 a ha
      exact ⟨a1, new, k, e, hb, hst, hidx, hfl, hse, by rw [hlen]; exact hsum⟩

theorem GameLoopBody_cursor (core_run env : Bool) (f : Frame) (s : Pacer)
    (hs : belowThreshold s.g_audioBufferPos) (hf : belowThreshold f.cursorAfterRun) :
    belowThreshold (GameLoopBody core_run env f s).g_audioBufferPos := by
  have hz : belowThreshold 0 := ⟨le_refl 0, by norm_num⟩
  unfold GameLoopBody
  cases f.paused <;> cases core_run <;> cases f.fastForward <;>
    simp only [Bool.false_eq_true, if_false, if_true, Bool.not_false, Bool.not_true] <;>
    first
    | exact hs
    | (split_ifs <;> first | exact hz | exact hs | exact hf)

theorem nativeLoadGame_cursor (h h1 : Host) (success r : Bool)
    (e : nativeLoadGame h success = some (r, h1)) :
    h1.g_audioBufferPos = h.g_audioBufferPos ∨ h1.g_audioBufferPos = 0 := by
  by_cases hg : (!h.g_coreHandle || !h.syms.core_load_game) = true
  · simp only [nativeLoadGame, hg, if_true, Option.some.injEq, Prod.mk.injEq] at e
    exact Or.inl (by rw [← e.2])
  · right
    cases hr : h.g_isRunning <;> cases ht : h.g_emuThread <;>
      cases hu : h.syms.core_unload_game <;> cases success <;>
      simp [nativeLoadGame, hg, hr, ht, hu, Host.joinEmuThread, Host.callIf, Host.emit] at e <;>
      (obtain ⟨_, rfl⟩ := e; rfl)

theorem nativeQuitGame_cursor (h : Host) : (nativeQuitGame h).g_audioBufferPos = 0 := by
  cases ht : h.g_emuThread <;> cases hu : h.syms.core_unload_game <;>
    simp [nativeQuitGame, Host.joinEmuThread, Host.callIf, Host.emit, ht, hu]

/-- C12. With the default target of 4096, start from audio cursors in the range from 0 up to
but not including 2048. Then (1) every audio batch callback, for any frame count and with
fast-forward on or off, returns with the cursor in that range, having stored only at indices
from 0 to below the capacity 8192, and every flush it triggered took a snapshot of exactly
2048 samples (passed on to `SendAudioToJava` whenever a JNI environment is available), the
samples stored being accounted for by `2048 * flushes` plus the cursor movement; (2) for
each single sample, a flush happens exactly when the cursor reaches 2048 and then resets it
to 0; (3) a pass of the game loop, with its end-of-frame residual flush, leaves the cursor
in the range; (4) so does `nativeLoadGame`, which returns whenever the emulation thread
matches the running flag; (5) so does `nativeQuitGame`. -/
theorem audio_cursor_stays_below_threshold (g_fastForward env core_run success : Bool)
    (data : Option (Nat → Int)) (frames : Nat) (sample : Int) (a : AudioStage) (f : Frame)
    (s : Pacer) (h : Host)
    (ha : belowThreshold a.g_audioBufferPos) (hs : belowThreshold s.g_audioBufferPos)
    (hf : belowThreshold f.cursorAfterRun) (hh : belowThreshold h.g_audioBufferPos) :
    (∃ a1 new k,
      AudioSampleBatchCallback g_fastForward g_audioBufferSize env data frames a = some a1 ∧
      belowThreshold a1.g_audioBufferPos ∧
      a1.stores = a.stores ++ new ∧
      (∀ w ∈ new, 0 ≤ w.1 ∧ w.1 < g_audioBufferCapacity) ∧
      a1.flushes = a.flushes ++ List.replicate k 2048 ∧
      a1.sent = a.sent ++ (if env then List.replicate k 2048 else []) ∧
      a.g_audioBufferPos + new.length = 2048 * k + a1.g_audioBufferPos) ∧
    (∃ a1, pushSample g_audioBufferSize env sample a = some a1 ∧
      a1.stores = a.stores ++ [(a.g_audioBufferPos, sample)] ∧
      ((a.g_audioBufferPos + 1 = 2048 ∧ a1.g_audioBufferPos = 0 ∧
          a1.flushes = a.flushes ++ [2048] ∧
          a1.sent = a.sent ++ (if env then [2048] else [])) ∨
       (a.g_audioBufferPos + 1 < 2048 ∧ a1.g_audioBufferPos = a.g_audioBufferPos + 1 ∧
          a1.flushes = a.flushes ∧ a1.sent = a.sent))) ∧
    belowThreshold (GameLoopBody core_run env f s).g_audioBufferPos ∧
    (∀ r h1, nativeLoadGame h success = some (r, h1) → belowThreshold h1.g_audioBufferPos) ∧
    (ThreadMatchesFlag h → ∃ r h1, nativeLoadGame h success = some (r, h1)) ∧
    belowThreshold (nativeQuitGame h).g_audioBufferPos := by
  have hz : belowThreshold 0 := ⟨le_refl 0, by norm_num⟩
  refine ⟨AudioSampleBatchCallback_default g_fastForward env data frames a ha,
    pushSample_default env sample a ha, GameLoopBody_cursor core_run env f s hs hf, ?_, ?_, ?_⟩
  · intro r h1 e
    rcases nativeLoadGame_cursor h h1 success r e with e1 | e1
    · rw [e1]
      exact hh
    · rw [e1]
      exact hz
  · intro hinv
    obtain ⟨r, h1, e, _⟩ := nativeLoadGame_spec h success hinv
    exact ⟨r, h1, e⟩
  · rw [nativeQuitGame_cursor]
    exact hz

/-- C12 with the cursor at 2046 and a batch of one frame: the two samples are stored at
indices 2046 and 2047, the second one triggers a flush of 2048 samples and the cursor is
back at 0; in `Host.playing` a further `nativeLoadGame` and `nativeQuitGame` leave the
cursor at 0. -/
theorem audio_cursor_stays_below_threshold_witness :
    belowThreshold 2046 ∧ belowThreshold 0 ∧ belowThreshold 1470 ∧
    AudioSampleBatchCallback false g_audioBufferSize true (some fun i => (i : Int) - 7) 1
        { g_audioBufferPos := 2046, stores := [], flushes := [], sent := [] }
      = some { g_audioBufferPos := 0, stores := [(2046, -7), (2047, -6)], flushes := [2048],
               sent := [2048] } ∧
    belowThreshold (GameLoopBody true true
        { paused := false, fastForward := false, now := 0, cursorAfterRun := 1470 }
        { nextFrameTime := 0, coreRunCalls := 0, g_audioBufferPos := 0,
          sent := [] }).g_audioBufferPos ∧
    (∃ r h1, nativeLoadGame Host.playing true = some (r, h1)) ∧
    belowThreshold (nativeQuitGame Host.playing).g_audioBufferPos := by
  have b0 : belowThreshold 0 := ⟨le_refl 0, by norm_num⟩
  have b1 : belowThreshold 2046 := ⟨by norm_num, by norm_num⟩
  have b2 : belowThreshold 1470 := ⟨by norm_num, by norm_num⟩
  have k := audio_cursor_stays_below_threshold false true true true
    (some fun i => (i : Int) - 7) 1 0
    { g_audioBufferPos := 2046, stores := [], flushes := [], sent := [] }
    { paused := false, fastForward := false, now := 0, cursorAfterRun := 1470 }
    { nextFrameTime := 0, coreRunCalls := 0, g_audioBufferPos := 0, sent := [] }
    Host.playing b1 b0 b2 b0
  exact ⟨b1, b0, b2, by decide, k.2.2.1, k.2.2.2.2.1 rfl, k.2.2.2.2.2⟩

end Nova
